import Mathlib

/-!
# Verification of the biip barcode parsing engine

A shallow embedding of the biip parsing core, with theorems checking the
natural-language specification against the code.

Source files embedded directly:
* `src/biip/_parser.py` (top-level dispatcher, `ParseResult`)
* `src/biip/gs1/_messages.py` (`GS1Message.parse`, `parse_hri`, `as_hri`,
  `filter`, `get`)

The remaining modules referenced by those files (`biip.gtin`, `biip.upc`,
`biip.sscc`, `biip.symbology`, `biip.gs1` element strings and the AI catalog)
are not part of the repository snapshot; definitions for them below are
modelled from the specification document and the repository's own tests, and
each such definition says so in its doc comment.

All strings are modelled as `List Char`.  Python `str.strip()` is modelled by
`pyStrip`, including the fact that CPython treats the control characters
`\x1c`-`\x1f` (and thus the default GS separator `\x1d`) as whitespace.
-/

deriving instance DecidableEq for Except

namespace Biip

/-- The two error kinds of biip (`ParseError`, its refinement `ChecksumError`),
plus Python's builtin `ValueError` used for region lookups.  The dispatcher
catches `parseError` and `checksumError` but never `valueError`. -/
inductive BiipError where
  | parseError (msg : List Char)
  | checksumError (msg : List Char)
  | valueError (msg : List Char)
deriving DecidableEq

/-- The message carried by an error, `str(exc)` in Python. -/
def BiipError.message : BiipError → List Char
  | .parseError m => m
  | .checksumError m => m
  | .valueError m => m

/-- `True` for `ParseError` and its refinement `ChecksumError`; the dispatcher
catches exactly these. -/
def BiipError.isParseError : BiipError → Bool
  | .parseError _ => true
  | .checksumError _ => true
  | .valueError _ => false

/-- ASCII decimal digit test (Python `str.isdigit` restricted to ASCII data,
which is all the decoders accept). -/
def isDigitChar (c : Char) : Bool :=
  48 ≤ c.toNat && c.toNat ≤ 57

/-- Numeric value of an ASCII digit. -/
def digitVal (c : Char) : Nat := c.toNat - 48

/-- Characters stripped by CPython's `str.strip()`: the ASCII whitespace
characters, the C1/extra space characters relevant to Latin-1, and the
separator control characters `\x1c`-`\x1f` (file/group/record/unit
separator), which CPython classifies as whitespace.  In particular the
default GS1 separator `\x1d` is stripped from the ends of the input. -/
def isPySpace (c : Char) : Bool :=
  c.toNat = 32 || (9 ≤ c.toNat && c.toNat ≤ 13) ||
    (28 ≤ c.toNat && c.toNat ≤ 31) || c.toNat = 133 || c.toNat = 160

/-- Python `str.strip()`. -/
def pyStrip (s : List Char) : List Char :=
  ((s.dropWhile isPySpace).reverse.dropWhile isPySpace).reverse

/-- A minimal model of Python `repr` for strings as used in biip's error
messages: the string in single quotes (the inputs interpolated into the
messages proved about below contain no quotes or backslashes). -/
def pyRepr (s : List Char) : List Char :=
  Char.ofNat 39 :: s ++ [Char.ofNat 39]

/-- The ASCII GS character (0x1D), biip's `ASCII_GROUP_SEPARATOR`. -/
def gsChar : Char := Char.ofNat 29

/-- biip's `DEFAULT_SEPARATOR_CHARS`. -/
def defaultSeparatorChars : List Char := [gsChar]

/-! ## Check digit arithmetic (component C1)

Modelled from the spec: `biip/gtin/_checksums.py` is not in the repository
snapshot.  Spec §4.1: enumerate digits right-to-left starting at position 1,
multiply alternating positions by 3 and 1 (position 1 gets weight 3), sum,
check digit = (10 − sum mod 10) mod 10. -/

/-- Weighted mod-10 sum over a digit list given in right-to-left order,
weights 3, 1, 3, 1, … starting with 3. -/
def weightedSum : List Nat → Nat
  | [] => 0
  | [d] => 3 * d
  | d :: e :: rest => 3 * d + e + weightedSum rest

/-- Modelled from the spec: the GS1 mod-10 check digit of a payload (all
digits except the final check digit), spec §4.1. -/
def numericCheckDigit (payload : List Char) : Nat :=
  (10 - weightedSum ((payload.reverse).map digitVal) % 10) % 10

/-- Modelled from the spec: check-digit verification, spec §4.1.  The value's
final digit must equal the check digit computed over the rest. -/
def checkDigitValid (value : List Char) : Bool :=
  match value.reverse with
  | [] => false
  | last :: revPayload => numericCheckDigit revPayload.reverse == digitVal last

/-! ## RCN regions and usage (component C7)

Modelled from the spec (§4.7, §6) and `src/tests/gtin/test_rcn.py`:
`biip/gtin/_rcn.py` and the `RcnRegion` enum are not in the repository
snapshot. -/

/-- The regions biip implements, spec §4.7. -/
inductive RcnRegion where
  | denmark | estonia | finland | germany | greatBritain
  | latvia | lithuania | norway | sweden
deriving DecidableEq

/-- The lowercase ISO 3166-1 alpha-2 code that is each enum member's value. -/
def RcnRegion.code : RcnRegion → List Char
  | .denmark => ['d', 'k']
  | .estonia => ['e', 'e']
  | .finland => ['f', 'i']
  | .germany => ['d', 'e']
  | .greatBritain => ['g', 'b']
  | .latvia => ['l', 'v']
  | .lithuania => ['l', 't']
  | .norway => ['n', 'o']
  | .sweden => ['s', 'e']

/-- All members of the `RcnRegion` enum. -/
def allRcnRegions : List RcnRegion :=
  [.denmark, .estonia, .finland, .germany, .greatBritain,
   .latvia, .lithuania, .norway, .sweden]

/-- Modelled from the spec: `RcnRegion(value)` lookup by enum value string;
returns `none` for strings that name no supported region. -/
def lookupRcnRegion (s : List Char) : Option RcnRegion :=
  allRcnRegions.find? (fun r => r.code == s)

/-- The argument biip's `Gtin.parse` accepts for `rcn_region`: either the
enumerated value or its string code. -/
abbrev RcnRegionArg := RcnRegion ⊕ List Char

/-- Modelled from the spec and `test_fails_when_rcn_region_is_unknown_string`:
resolving the `rcn_region` argument; a string that names no supported region
raises `ValueError: '<s>' is not a valid RcnRegion`. -/
def resolveRcnRegion : Option RcnRegionArg → Except BiipError (Option RcnRegion)
  | none => .ok none
  | some (.inl r) => .ok (some r)
  | some (.inr s) =>
    match lookupRcnRegion s with
    | some r => .ok (some r)
    | none =>
      .error (.valueError (pyRepr s ++ " is not a valid RcnRegion".toList))

/-- RCN usage classification, spec §3. -/
inductive RcnUsage where
  | company | geographical
deriving DecidableEq

/-! ## The GTIN decoder (component C6) -/

/-- GTIN formats, determined by the number of significant digits. -/
inductive GtinFormat where
  | gtin8 | gtin12 | gtin13 | gtin14
deriving DecidableEq

/-- A parsed GTIN.  `rcn` is `some (usage, region)` exactly when biip returns
the `Rcn` refinement instead of a plain `Gtin`.  The regional weight/price
extraction (spec §4.7) is outside the scope of the claims and is not
modelled. -/
structure Gtin where
  value : List Char
  format : GtinFormat
  rcn : Option (RcnUsage × Option RcnRegion)
deriving DecidableEq

/-- The 14-digit canonical form: the value left-padded with zeros. -/
def asGtin14 (v : List Char) : List Char :=
  List.replicate (14 - v.length) '0' ++ v

/-- The canonical 12-digit form of a GTIN (`Gtin.as_gtin_12`). -/
def Gtin.asGtin12 (g : Gtin) : List Char :=
  (asGtin14 g.value).drop 2

/-- Modelled from the spec (§4.6 step 6, §4.7) and the tests in
`src/tests/gtin/test_rcn.py`: RCN detection and usage classification from the
format and the 14-digit canonical form.  Where §4.7's prose disagrees with
the repository's tests (RCN-12 with leading digit 2, RCN-13 with leading
digits other than 20), the tests and the spec's own §8 scenarios are
followed: leading digit 2 of the significant form means GEOGRAPHICAL for
RCN-12 and RCN-13, leading digit 4 means COMPANY for RCN-12, and RCN-8
(leading digit 0 or 2 of the 8-digit form) is always COMPANY. -/
def classifyRcn (format : GtinFormat) (c14 : List Char) : Option RcnUsage :=
  match format with
  | .gtin8 =>
    match (c14.drop 6).head? with
    | some c => if c = '0' || c = '2' then some .company else none
    | none => none
  | .gtin12 =>
    match (c14.drop 2).head? with
    | some c =>
      if c = '2' then some .geographical
      else if c = '4' then some .company
      else none
    | none => none
  | .gtin13 =>
    match (c14.drop 1).head? with
    | some c => if c = '2' then some .geographical else none
    | none => none
  | .gtin14 => none

/-- Modelled from the spec: the GTIN format from the number of significant
digits (leading zeros stripped), per §4.6 and the tests, e.g.
`0211111111114` (13 digits, 12 significant) is a GTIN-12. -/
def gtinFormatOf (sigLen : Nat) : GtinFormat :=
  if sigLen ≤ 8 then .gtin8
  else if sigLen ≤ 12 then .gtin12
  else if sigLen ≤ 13 then .gtin13
  else .gtin14

/-- Modelled from the spec: `Gtin.parse(value, rcn_region)`, spec §4.6.
Strips whitespace; requires 8/12/13/14 digits (`ParseError`); verifies the
check digit (`ChecksumError`); determines the format from the significant
digits; detects RCNs and classifies their usage; resolves the region argument
(which may raise `ValueError` for unknown region strings) only when the value
is an RCN, and records the region only for GEOGRAPHICAL usage, per
`test_gtin_parse_may_return_rcn_instance`. -/
def gtinParse (value : List Char) (regionArg : Option RcnRegionArg) :
    Except BiipError Gtin := do
  let v := pyStrip value
  if ¬ (v.all isDigitChar) then
    .error (.parseError
      ("Failed to parse ".toList ++ pyRepr v ++ " as GTIN: expected digits.".toList))
  else if ¬ (v.length = 8 ∨ v.length = 12 ∨ v.length = 13 ∨ v.length = 14) then
    .error (.parseError
      ("Failed to parse ".toList ++ pyRepr v ++
        " as GTIN: expected 8, 12, 13, or 14 digits.".toList))
  else if ¬ checkDigitValid v then
    .error (.checksumError
      ("Invalid GTIN check digit for ".toList ++ pyRepr v ++ ".".toList))
  else
    let sig := v.dropWhile (· = '0')
    let format := gtinFormatOf sig.length
    let c14 := asGtin14 v
    match classifyRcn format c14 with
    | none => .ok { value := v, format := format, rcn := none }
    | some usage => do
      let region ← resolveRcnRegion regionArg
      .ok { value := v, format := format,
            rcn := some (usage, if usage = .geographical then region else none) }

/-! ## The SSCC decoder (component C9) -/

/-- A parsed SSCC.  Modelled from the spec (§4.9): the company/serial split
is irrelevant to the claims and not modelled. -/
structure Sscc where
  value : List Char
deriving DecidableEq

/-- Modelled from the spec: `Sscc.parse(value)`, spec §4.9: exactly 18
digits, check digit verified. -/
def ssccParse (value : List Char) : Except BiipError Sscc :=
  let v := pyStrip value
  if ¬ (v.all isDigitChar ∧ v.length = 18) then
    .error (.parseError
      ("Failed to parse ".toList ++ pyRepr v ++
        " as SSCC: expected 18 digits.".toList))
  else if ¬ checkDigitValid v then
    .error (.checksumError
      ("Invalid SSCC check digit for ".toList ++ pyRepr v ++ ".".toList))
  else .ok { value := v }

/-! ## The AI catalog (component C3)

Modelled from the spec: `biip/gs1/_application_identifiers.py` is a static
~200-entry data table not in the repository snapshot and, per spec §1, "a
data input to the core, not a subsystem to design".  A representative subset
is embedded, covering the AIs the spec's scenarios use: fixed all-numeric
AIs, variable-length FNC1-required AIs over both the numeric and the
invariant character set, and the domain AIs 00/01/02 with embedded
SSCC/GTIN decoding.  Every entry's `ai` is a 2- or 4-digit string and
`fnc1_required` is true exactly when the format ends in a variable-length
segment (spec §4.3). -/

/-- Character classes of AI format segments, spec §4.3: `N` = digit, `X` =
the GS1 invariant printable-ASCII set. -/
inductive SegClass where
  | nclass | xclass
deriving DecidableEq

/-- The GS1 invariant character set (82 characters): digits, letters, and
`! " % & ' ( ) * + , - . / : ; < = > ? _`. -/
def isXChar (c : Char) : Bool :=
  let n := c.toNat
  n = 33 || n = 34 || (37 ≤ n && n ≤ 63) || (65 ≤ n && n ≤ 90) ||
    n = 95 || (97 ≤ n && n ≤ 122)

/-- Whether a character belongs to a segment character class. -/
def segClassAccepts : SegClass → Char → Bool
  | .nclass, c => isDigitChar c
  | .xclass, c => isXChar c

/-- A GS1 Application Identifier catalog entry, spec §3: the AI digits, the
data title, the FNC1-required flag, and the format pattern as a list of
fixed-width segments optionally followed by one trailing variable-length
segment with an upper bound (lower bound 1). -/
structure GS1ApplicationIdentifier where
  ai : List Char
  dataTitle : List Char
  fnc1Required : Bool
  fixedSegs : List (SegClass × Nat)
  varSeg : Option (SegClass × Nat)
deriving DecidableEq

/-- Modelled from the spec: the embedded subset of the AI catalog. -/
def aiCatalog : List GS1ApplicationIdentifier :=
  [⟨"00".toList, "SSCC".toList, false, [(.nclass, 18)], none⟩,
   ⟨"01".toList, "GTIN".toList, false, [(.nclass, 14)], none⟩,
   ⟨"02".toList, "CONTENT".toList, false, [(.nclass, 14)], none⟩,
   ⟨"10".toList, "BATCH/LOT".toList, true, [], some (.xclass, 20)⟩,
   ⟨"11".toList, "PROD DATE".toList, false, [(.nclass, 6)], none⟩,
   ⟨"15".toList, "BEST BEFORE or BEST BY".toList, false, [(.nclass, 6)], none⟩,
   ⟨"17".toList, "USE BY OR EXPIRY".toList, false, [(.nclass, 6)], none⟩,
   ⟨"21".toList, "SERIAL".toList, true, [], some (.xclass, 20)⟩,
   ⟨"37".toList, "COUNT".toList, true, [], some (.nclass, 8)⟩,
   ⟨"3103".toList, "NET WEIGHT (kg)".toList, false, [(.nclass, 6)], none⟩]

/-- Exact catalog lookup by AI string (`_GS1_APPLICATION_IDENTIFIERS[s]`). -/
def lookupAIExact (s : List Char) : Option GS1ApplicationIdentifier :=
  aiCatalog.find? (fun e => e.ai == s)

/-- Modelled from the spec (§4.3, §4.4 step 1): longest-prefix AI lookup —
try the first 4, 3, then 2 characters of the buffer against the catalog. -/
def findLongestAI (r : List Char) : Option GS1ApplicationIdentifier :=
  match lookupAIExact (r.take 4) with
  | some e => some e
  | none =>
    match lookupAIExact (r.take 3) with
    | some e => some e
    | none => lookupAIExact (r.take 2)

/-! ## Element String extraction (component C4)

Modelled from the spec (§4.4): `biip/gs1/_element_strings.py` is not in the
repository snapshot. -/

/-- Read the fixed-width segments: each consumes exactly its declared width,
failing on a short buffer or a wrong character class (spec §4.4 step 2).
Returns the consumed characters and the remaining buffer. -/
def readFixedSegs : List (SegClass × Nat) → List Char →
    Option (List Char × List Char)
  | [], buf => some ([], buf)
  | (cls, n) :: rest, buf =>
    let chunk := buf.take n
    if chunk.length = n ∧ chunk.all (segClassAccepts cls) then
      match readFixedSegs rest (buf.drop n) with
      | some (v, r) => some (chunk ++ v, r)
      | none => none
    else none

/-- A character that is not one of the separator characters. -/
def notSep (seps : List Char) (c : Char) : Bool :=
  ! seps.contains c

/-- Read a trailing variable-length segment: consume characters up to but not
including the first separator character, or the end of the buffer, bounded
by the segment's maximum; at least one character is required (spec §4.4
step 2). -/
def readVarSeg (cls : SegClass) (mx : Nat) (buf : List Char)
    (seps : List Char) : Option (List Char × List Char) :=
  let chunk := (buf.takeWhile (notSep seps)).take mx
  if chunk ≠ [] ∧ chunk.all (segClassAccepts cls) then
    some (chunk, buf.drop chunk.length)
  else none

/-- Read an AI's whole value per its format pattern: the fixed segments, then
the optional trailing variable-length segment. -/
def readSegs (entry : GS1ApplicationIdentifier) (buf : List Char)
    (seps : List Char) : Option (List Char × List Char) :=
  match readFixedSegs entry.fixedSegs buf with
  | none => none
  | some (v1, r1) =>
    match entry.varSeg with
    | none => some (v1, r1)
    | some (cls, mx) =>
      match readVarSeg cls mx r1 seps with
      | none => none
      | some (v2, r2) => some (v1 ++ v2, r2)

/-- One GS1 Element String: a catalog entry plus its raw value, and the
decoded domain fields needed by the claims (an embedded GTIN for AI 01/02,
an embedded SSCC for AI 00).  Dates and decimals are outside the claims. -/
structure GS1ElementString where
  ai : GS1ApplicationIdentifier
  value : List Char
  gtin : Option Gtin
  sscc : Option Sscc
deriving DecidableEq

/-- The consumed length of an Element String (`GS1ElementString.__len__`):
the AI digits plus the raw value. -/
def esLen (es : GS1ElementString) : Nat :=
  es.ai.ai.length + es.value.length

/-- `GS1ElementString.as_hri()`: `(AI)value`. -/
def esAsHri (es : GS1ElementString) : List Char :=
  '(' :: es.ai.ai ++ ')' :: es.value

/-- Modelled from the spec (§4.4 step 3): decode the domain fields of a
value: AIs 01/02 carry a check-digit-verified GTIN, AI 00 an SSCC; a failed
embedded decode fails the extraction. -/
def decodeDomain (entry : GS1ApplicationIdentifier) (v : List Char)
    (region : Option RcnRegion) : Except BiipError (Option Gtin × Option Sscc) :=
  if entry.ai = "01".toList ∨ entry.ai = "02".toList then
    (gtinParse v (region.map .inl)).map (fun g => (some g, none))
  else if entry.ai = "00".toList then
    (ssccParse v).map (fun s => (none, some s))
  else .ok (none, none)

/-- Modelled from the spec: `GS1ElementString.extract(buffer)`, spec §4.4:
find the longest AI prefix in the catalog, read the value per the AI's
format, decode domain fields. -/
def gs1ExtractElement (r : List Char) (region : Option RcnRegion)
    (seps : List Char) : Except BiipError GS1ElementString :=
  match findLongestAI r with
  | none =>
    .error (.parseError
      ("Failed to get GS1 Application Identifier from ".toList ++
        pyRepr r ++ ".".toList))
  | some entry =>
    match readSegs entry (r.drop entry.ai.length) seps with
    | none =>
      .error (.parseError
        ("Failed to match ".toList ++ pyRepr r ++
          " with GS1 AI ".toList ++ entry.ai ++ " pattern.".toList))
    | some (val, _) =>
      (decodeDomain entry val region).map (fun p => ⟨entry, val, p.1, p.2⟩)

/-- Every catalog entry's AI string is nonempty. -/
theorem aiCatalog_ai_ne_nil :
    ∀ e ∈ aiCatalog, e.ai ≠ [] := by decide

/-- A successful AI lookup returns a catalog entry. -/
theorem findLongestAI_mem {r : List Char} {e : GS1ApplicationIdentifier}
    (h : findLongestAI r = some e) : e ∈ aiCatalog := by
  unfold findLongestAI at h
  split at h
  · next h4 =>
    unfold lookupAIExact at h4
    cases h
    exact List.mem_of_find?_eq_some h4
  · next h4 =>
    split at h
    · next h3 =>
      unfold lookupAIExact at h3
      cases h
      exact List.mem_of_find?_eq_some h3
    · exact List.mem_of_find?_eq_some h

/-- A successfully extracted Element String's AI is a catalog entry. -/
theorem gs1ExtractElement_ai_mem {r : List Char} {region : Option RcnRegion}
    {seps : List Char} {es : GS1ElementString}
    (h : gs1ExtractElement r region seps = .ok es) : es.ai ∈ aiCatalog := by
  unfold gs1ExtractElement at h
  split at h
  · exact absurd h (by simp)
  · next entry hf =>
    split at h
    · exact absurd h (by simp)
    · next val rest2 hs =>
      cases hdd : decodeDomain entry val region with
      | error e => rw [hdd] at h; simp [Except.map] at h
      | ok q =>
        rw [hdd] at h
        simp only [Except.map, Except.ok.injEq] at h
        rw [← h]
        exact findLongestAI_mem hf

/-- A successfully extracted Element String consumes at least one character
(its AI is nonempty). -/
theorem gs1ExtractElement_esLen_pos {r : List Char} {region : Option RcnRegion}
    {seps : List Char} {es : GS1ElementString}
    (h : gs1ExtractElement r region seps = .ok es) : 1 ≤ esLen es := by
  have hm := gs1ExtractElement_ai_mem h
  have hne := aiCatalog_ai_ne_nil es.ai hm
  have : 0 < es.ai.ai.length := List.length_pos.mpr hne
  unfold esLen
  omega

/-! ## GS1 Message parsing (component C5)

Embedded from `src/biip/gs1/_messages.py` (`GS1Message.parse`): repeatedly
extract an Element String and advance past it; if the remainder then starts
with a separator character, consume exactly one when the just-consumed AI is
FNC1-required, else raise `ParseError`. -/

/-- The `ParseError` message raised when a fixed-length Element String is
followed by a separator character (`_messages.py` lines 81-85). -/
def fixedSepMsg (es : GS1ElementString) (c : Char) (orig : List Char) :
    List Char :=
  "Element String ".toList ++ pyRepr (esAsHri es) ++
    " has fixed length and should not end with a separator character. Separator character ".toList ++
    pyRepr [c] ++ " found in ".toList ++ pyRepr orig ++ ".".toList

/-- The `while rest:` loop of `GS1Message.parse`, structurally recursive on
a fuel bound.  `orig` is the stripped input, used only in error messages.
Each loop iteration consumes at least one character
(`gs1ExtractElement_esLen_pos`), so any fuel above the buffer length gives
the same result (`parseElemsF_congr`); the fuel-exhausted branch is never
reached from `parseElems`. -/
def parseElemsF (orig : List Char) (region : Option RcnRegion)
    (seps : List Char) : Nat → List Char →
    Except BiipError (List GS1ElementString)
  | 0, _ => .ok []
  | _ + 1, [] => .ok []
  | fuel + 1, r₀ :: rrest =>
    match gs1ExtractElement (r₀ :: rrest) region seps with
    | .error e => .error e
    | .ok es =>
      match (r₀ :: rrest).drop (esLen es) with
      | [] => .ok [es]
      | c :: tail =>
        if seps.contains c then
          if es.ai.fnc1Required then
            (parseElemsF orig region seps fuel tail).map (es :: ·)
          else
            .error (.parseError (fixedSepMsg es c orig))
        else
          (parseElemsF orig region seps fuel (c :: tail)).map (es :: ·)

/-- The result of the loop does not depend on the fuel, once the fuel
exceeds the buffer length. -/
theorem parseElemsF_congr (orig : List Char) (region : Option RcnRegion)
    (seps : List Char) :
    ∀ (f₁ : Nat) (rest : List Char) (f₂ : Nat), rest.length < f₁ →
      rest.length < f₂ →
      parseElemsF orig region seps f₁ rest = parseElemsF orig region seps f₂ rest := by
  intro f₁
  induction f₁ with
  | zero => intro rest f₂ h₁; omega
  | succ f ih =>
    intro rest f₂ h₁ h₂
    cases f₂ with
    | zero => omega
    | succ f' =>
      cases rest with
      | nil => rfl
      | cons r₀ rrest =>
        simp only [parseElemsF]
        cases hx : gs1ExtractElement (r₀ :: rrest) region seps with
        | error e => rfl
        | ok es =>
          have hpos := gs1ExtractElement_esLen_pos hx
          dsimp only
          have hlen : ((r₀ :: rrest).drop (esLen es)).length
              = (r₀ :: rrest).length - esLen es := List.length_drop _ _
          cases hd : (r₀ :: rrest).drop (esLen es) with
          | nil => rfl
          | cons c tail =>
            rw [hd] at hlen
            simp only [List.length_cons] at hlen h₁ h₂
            dsimp only
            split
            · split
              · rw [ih tail f' (by omega) (by omega)]
              · rfl
            · rw [ih (c :: tail) f'
                (by simp only [List.length_cons]; omega)
                (by simp only [List.length_cons]; omega)]

/-- The `while rest:` loop of `GS1Message.parse`. -/
def parseElems (orig : List Char) (region : Option RcnRegion)
    (seps : List Char) (rest : List Char) :
    Except BiipError (List GS1ElementString) :=
  parseElemsF orig region seps (rest.length + 1) rest

/-- One unfolding of the loop. -/
theorem parseElems_cons (orig : List Char) (region : Option RcnRegion)
    (seps : List Char) (r₀ : Char) (rrest : List Char) :
    parseElems orig region seps (r₀ :: rrest) =
      match gs1ExtractElement (r₀ :: rrest) region seps with
      | .error e => .error e
      | .ok es =>
        match (r₀ :: rrest).drop (esLen es) with
        | [] => .ok [es]
        | c :: tail =>
          if seps.contains c then
            if es.ai.fnc1Required then
              (parseElems orig region seps tail).map (es :: ·)
            else
              .error (.parseError (fixedSepMsg es c orig))
          else
            (parseElems orig region seps (c :: tail)).map (es :: ·) := by
  have step : parseElems orig region seps (r₀ :: rrest) =
      match gs1ExtractElement (r₀ :: rrest) region seps with
      | .error e => .error e
      | .ok es =>
        match (r₀ :: rrest).drop (esLen es) with
        | [] => .ok [es]
        | c :: tail =>
          if seps.contains c then
            if es.ai.fnc1Required then
              (parseElemsF orig region seps (rrest.length + 1) tail).map
                (es :: ·)
            else
              .error (.parseError (fixedSepMsg es c orig))
          else
            (parseElemsF orig region seps (rrest.length + 1) (c :: tail)).map
              (es :: ·) := rfl
  rw [step]
  cases hx : gs1ExtractElement (r₀ :: rrest) region seps with
  | error e => rfl
  | ok es =>
    have hpos := gs1ExtractElement_esLen_pos hx
    dsimp only
    have hlen : ((r₀ :: rrest).drop (esLen es)).length
        = (r₀ :: rrest).length - esLen es := List.length_drop _ _
    cases hd : (r₀ :: rrest).drop (esLen es) with
    | nil => rfl
    | cons c tail =>
      rw [hd] at hlen
      simp only [List.length_cons] at hlen
      dsimp only
      split
      · split
        · unfold parseElems
          rw [parseElemsF_congr orig region seps (rrest.length + 1) tail
            (tail.length + 1) (by omega) (by omega)]
        · rfl
      · unfold parseElems
        rw [parseElemsF_congr orig region seps (rrest.length + 1) (c :: tail)
          ((c :: tail).length + 1)
          (by simp only [List.length_cons]; omega)
          (by simp only [List.length_cons]; omega)]

/-- A GS1 Message: the raw (stripped) value and the ordered Element
Strings. -/
structure GS1Message where
  value : List Char
  elementStrings : List GS1ElementString
deriving DecidableEq

/-- `GS1Message.parse(value, rcn_region, separator_chars)`. -/
def gs1MessageParse (value : List Char) (region : Option RcnRegion)
    (seps : List Char) : Except BiipError GS1Message :=
  let v := pyStrip value
  (parseElems v region seps v).map (fun es => ⟨v, es⟩)

/-- `GS1Message.as_hri()`: concatenate each Element String's HRI. -/
def msgAsHri (m : GS1Message) : List Char :=
  (m.elementStrings.map esAsHri).flatten

/-- `GS1Message.filter(ai=...)`: all Element Strings whose AI starts with
the given string. -/
def gs1MessageFilterAi (m : GS1Message) (ai : List Char) :
    List GS1ElementString :=
  m.elementStrings.filter (fun es => ai.isPrefixOf es.ai.ai)

/-- `GS1Message.get(ai=...)`: the first Element String whose AI starts with
the given string. -/
def gs1MessageGetAi (m : GS1Message) (ai : List Char) :
    Option GS1ElementString :=
  (gs1MessageFilterAi m ai).head?

/-! ## The HRI codec (component C11)

`GS1Message.parse_hri` embedded from `src/biip/gs1/_messages.py`: the regex
`\((\d+)\)(\w+)` is modelled by an equivalent explicit scanner
(`re.findall` tries a match at each position, collects the two groups of
each non-overlapping match, and otherwise advances one character; both
character classes are disjoint from the delimiters, so the greedy `+`
needs no backtracking). -/

/-- Python `\w` on the ASCII data in play: letters, digits, underscore. -/
def isWordChar (c : Char) : Bool :=
  let n := c.toNat
  (48 ≤ n && n ≤ 57) || (65 ≤ n && n ≤ 90) || (97 ≤ n && n ≤ 122) || n = 95

/-- Try to match `\((\d+)\)(\w+)` at the head of the buffer, returning the
two captured groups. -/
def hriTryMatch : List Char → Option (List Char × List Char)
  | [] => none
  | c :: t =>
    if c = '(' then
      let ds := t.takeWhile isDigitChar
      if ds.isEmpty then none
      else
        match t.drop ds.length with
        | [] => none
        | c' :: u =>
          if c' = ')' then
            let ws := u.takeWhile isWordChar
            if ws.isEmpty then none else some (ds, ws)
          else none
    else none

/-- `re.findall` for the pattern above, structurally recursive on a fuel
bound: each match consumes at least its two parentheses, so any fuel above
the buffer length gives the same result (`hriFindAllF_congr`). -/
def hriFindAllF : Nat → List Char → List (List Char × List Char)
  | 0, _ => []
  | _ + 1, [] => []
  | fuel + 1, c :: rest =>
    match hriTryMatch (c :: rest) with
    | some (ds, ws) =>
      (ds, ws) :: hriFindAllF fuel ((c :: rest).drop (2 + ds.length + ws.length))
    | none => hriFindAllF fuel rest

/-- The scan result does not depend on the fuel, once the fuel exceeds the
buffer length. -/
theorem hriFindAllF_congr :
    ∀ (f₁ : Nat) (l : List Char) (f₂ : Nat), l.length < f₁ → l.length < f₂ →
      hriFindAllF f₁ l = hriFindAllF f₂ l := by
  intro f₁
  induction f₁ with
  | zero => intro l f₂ h₁; omega
  | succ f ih =>
    intro l f₂ h₁ h₂
    cases f₂ with
    | zero => omega
    | succ f' =>
      cases l with
      | nil => rfl
      | cons c rest =>
        simp only [hriFindAllF]
        cases hm : hriTryMatch (c :: rest) with
        | none =>
          simp only [List.length_cons] at h₁ h₂
          rw [ih rest f' (by omega) (by omega)]
        | some p =>
          obtain ⟨ds, ws⟩ := p
          dsimp only
          have hlen : ((c :: rest).drop (2 + ds.length + ws.length)).length
              = (c :: rest).length - (2 + ds.length + ws.length) :=
            List.length_drop _ _
          simp only [List.length_cons] at h₁ h₂ hlen
          rw [ih ((c :: rest).drop (2 + ds.length + ws.length)) f'
            (by omega) (by omega)]

/-- `re.findall` for the pattern above: collect all non-overlapping matches
left to right. -/
def hriFindAll (l : List Char) : List (List Char × List Char) :=
  hriFindAllF (l.length + 1) l

/-- One unfolding of the scan. -/
theorem hriFindAll_cons (c : Char) (rest : List Char) :
    hriFindAll (c :: rest) =
      match hriTryMatch (c :: rest) with
      | some (ds, ws) =>
        (ds, ws) :: hriFindAll ((c :: rest).drop (2 + ds.length + ws.length))
      | none => hriFindAll rest := by
  unfold hriFindAll
  conv =>
    lhs
    rw [show (c :: rest).length + 1 = rest.length + 1 + 1 from by simp]
  simp only [hriFindAllF]
  cases hm : hriTryMatch (c :: rest) with
  | none => dsimp only
  | some p =>
    obtain ⟨ds, ws⟩ := p
    dsimp only
    have hlen : ((c :: rest).drop (2 + ds.length + ws.length)).length
        = (c :: rest).length - (2 + ds.length + ws.length) :=
      List.length_drop _ _
    simp only [List.length_cons] at hlen
    rw [hriFindAllF_congr (rest.length + 1)
      ((c :: rest).drop (2 + ds.length + ws.length))
      (((c :: rest).drop (2 + ds.length + ws.length)).length + 1)
      (by omega) (by omega)]

/-- The catalog lookup of one scanned `(AI)DATA` pair of
`GS1Message.parse_hri`; `v` is the stripped input, used only in the error
message. -/
def hriLookupEntry (v : List Char) (p : List Char × List Char) :
    Except BiipError (GS1ApplicationIdentifier × List Char) :=
  match lookupAIExact p.1 with
  | some e => Except.ok (e, p.2)
  | none =>
    Except.error (BiipError.parseError
      ("Unknown GS1 Application Identifier ".toList ++ pyRepr p.1 ++
        " in ".toList ++ pyRepr v ++ ".".toList))

/-- `GS1Message.parse_hri(value, rcn_region)`: validate the leading
parenthesis, scan the `(AI)DATA` pairs, require every AI to be a catalog
key, reassemble the machine form by appending one separator after each
FNC1-required AI's data, and delegate to `GS1Message.parse` with the
default separator characters. -/
def gs1MessageParseHri (value : List Char) (region : Option RcnRegion) :
    Except BiipError GS1Message := do
  let v := pyStrip value
  if v.head? ≠ some '(' then
    .error (.parseError
      ("Expected HRI string ".toList ++ pyRepr v ++
        " to start with a parenthesis.".toList))
  else
    let found := hriFindAll v
    if found.isEmpty then
      .error (.parseError
        ("Could not find any GS1 Application Identifiers in ".toList ++
          pyRepr v ++ ". Expected format: (AI)DATA(AI)DATA.".toList))
    else do
      let entries ← found.mapM (hriLookupEntry v)
      let normalized := (entries.map (fun q =>
        q.1.ai ++ q.2 ++ (if q.1.fnc1Required then [gsChar] else []))).flatten
      gs1MessageParse normalized region defaultSeparatorChars

/-! ## The UPC decoder (component C8)

Modelled from the spec (§4.8): `biip/upc.py` is not in the repository
snapshot. -/

/-- UPC formats. -/
inductive UpcFormat where
  | upcA | upcE
deriving DecidableEq

/-- A parsed UPC. -/
structure Upc where
  value : List Char
  format : UpcFormat
deriving DecidableEq

/-- Modelled from the spec: the standard UPC-E insert-zeros expansion of a
6-digit body to the 10-digit tail of a UPC-A body, keyed on the final
digit. -/
def upcEExpandBody (b : List Char) : List Char :=
  match b with
  | [x1, x2, x3, x4, x5, x6] =>
    if x6 = '0' ∨ x6 = '1' ∨ x6 = '2' then
      [x1, x2, x6, '0', '0', '0', '0', x3, x4, x5]
    else if x6 = '3' then [x1, x2, x3, '0', '0', '0', '0', '0', x4, x5]
    else if x6 = '4' then [x1, x2, x3, x4, '0', '0', '0', '0', '0', x5]
    else [x1, x2, x3, x4, x5, '0', '0', '0', '0', x6]
  | _ => b

/-- The UPC-E number system digit and 6-digit body of a parsed 6/7/8-digit
UPC-E value. -/
def upcEParts (v : List Char) : Char × List Char :=
  if v.length = 8 then (v.headD '0', (v.drop 1).take 6)
  else ('0', v.take 6)

/-- `Upc.as_upc_a()`: a UPC-A value is returned as is; a UPC-E value is
expanded to its 11-digit UPC-A payload plus a freshly computed check
digit. -/
def upcAsUpcA (u : Upc) : List Char :=
  match u.format with
  | .upcA => u.value
  | .upcE =>
    let (ns, body) := upcEParts u.value
    let payload := ns :: upcEExpandBody body
    payload ++ [Char.ofNat (48 + numericCheckDigit payload)]

/-- Modelled from the spec: `Upc.parse(value)`, spec §4.8: a 12-digit value
is a check-digit-verified UPC-A; 6, 7, or 8 digits are UPC-E (7 = 6-digit
body + check digit, 8 = number system + body + check digit, and the check
digit is verified against the UPC-A expansion). -/
def upcParse (value : List Char) : Except BiipError Upc :=
  let v := pyStrip value
  if ¬ v.all isDigitChar then
    .error (.parseError
      ("Failed to parse ".toList ++ pyRepr v ++ " as UPC: expected digits.".toList))
  else if v.length = 12 then
    if checkDigitValid v then .ok { value := v, format := .upcA }
    else .error (.checksumError
      ("Invalid UPC-A check digit for ".toList ++ pyRepr v ++ ".".toList))
  else if v.length = 6 then .ok { value := v, format := .upcE }
  else if v.length = 7 ∨ v.length = 8 then
    if v.length = 8 ∧ ¬ (v.headD '0' = '0' ∨ v.headD '0' = '1') then
      .error (.parseError
        ("Invalid UPC-E number system for ".toList ++ pyRepr v ++ ".".toList))
    else
      let (ns, body) := upcEParts v
      let payload := ns :: upcEExpandBody body
      if v.getLast? = some (Char.ofNat (48 + numericCheckDigit payload)) then
        .ok { value := v, format := .upcE }
      else
        .error (.checksumError
          ("Invalid UPC-E check digit for ".toList ++ pyRepr v ++ ".".toList))
  else
    .error (.parseError
      ("Failed to parse ".toList ++ pyRepr v ++
        " as UPC: expected 6, 7, 8, or 12 digits.".toList))

/-! ## The Symbology Identifier (component C2)

Modelled from the spec (§3, §4.2): `biip/symbology.py` is not in the
repository snapshot. -/

/-- The GS1 symbology codes, spec §3: the flag+modifier pairs that indicate
a GTIN (`E0`, `E3`, `E4`) or a GS1 message with AI element strings
(`C1`, `e0`, `e1`, `e2`, `d2`, `Q3`, `I1`). -/
inductive GS1Symbology where
  | cOne | eUpper0 | eUpper3 | eUpper4 | eLower0 | eLower1 | eLower2
  | dTwo | qThree | iOne
deriving DecidableEq

/-- `GS1Symbology.with_gtin()`. -/
def gs1SymbologyWithGtin : List GS1Symbology :=
  [.eUpper0, .eUpper3, .eUpper4]

/-- `GS1Symbology.with_ai_element_strings()`. -/
def gs1SymbologyWithAIElementStrings : List GS1Symbology :=
  [.cOne, .eLower0, .eLower1, .eLower2, .dTwo, .qThree, .iOne]

/-- Lookup of the two-character flag+modifier pair; `none` when the pair is
not a recognized GS1 symbology code. -/
def lookupGS1Symbology (f m : Char) : Option GS1Symbology :=
  if f = 'C' ∧ m = '1' then some .cOne
  else if f = 'E' ∧ m = '0' then some .eUpper0
  else if f = 'E' ∧ m = '3' then some .eUpper3
  else if f = 'E' ∧ m = '4' then some .eUpper4
  else if f = 'e' ∧ m = '0' then some .eLower0
  else if f = 'e' ∧ m = '1' then some .eLower1
  else if f = 'e' ∧ m = '2' then some .eLower2
  else if f = 'd' ∧ m = '2' then some .dTwo
  else if f = 'Q' ∧ m = '3' then some .qThree
  else if f = 'I' ∧ m = '1' then some .iOne
  else none

/-- An extracted Symbology Identifier: the three raw characters and the
derived `gs1_symbology`. -/
structure SymbologyIdentifier where
  value : List Char
  gs1Symbology : Option GS1Symbology
deriving DecidableEq

/-- Printable ASCII. -/
def isPrintableAscii (c : Char) : Bool :=
  32 ≤ c.toNat && c.toNat ≤ 126

/-- Modelled from the spec: `SymbologyIdentifier.extract(value)`, spec §4.2:
when the value starts with `]`, consume exactly three characters; fail with
`ParseError` on fewer than three characters or non-printable flag/modifier
characters. -/
def symbologyExtract (v : List Char) : Except BiipError SymbologyIdentifier :=
  match v with
  | ']' :: f :: m :: _ =>
    if isPrintableAscii f ∧ isPrintableAscii m then
      .ok { value := [']', f, m], gs1Symbology := lookupGS1Symbology f m }
    else
      .error (.parseError
        ("Failed to get Symbology Identifier from ".toList ++ pyRepr v ++ ".".toList))
  | _ =>
    .error (.parseError
      ("Failed to get Symbology Identifier from ".toList ++ pyRepr v ++ ".".toList))

/-! ## The top-level dispatcher (component C10)

Embedded from `src/biip/_parser.py`: `parse`, `ParseResult` and its
`_parse_gtin` / `_parse_upc` / `_parse_sscc` / `_parse_gs1_message`
helpers, `_has_result`, `_get_errors_list`. -/

/-- The four parser kinds the work queue dispatches on. -/
inductive ParserKind where
  | gs1message | gtin | sscc | upc
deriving DecidableEq

/-- A work-queue job: a parser kind and the value to run it on. -/
abbrev Job := ParserKind × List Char

/-- The dispatcher's shared result, `ParseResult` from `_parser.py`. -/
structure ParseResult where
  value : List Char
  symbologyIdentifier : Option SymbologyIdentifier := none
  gtin : Option Gtin := none
  gtinError : Option (List Char) := none
  upc : Option Upc := none
  upcError : Option (List Char) := none
  sscc : Option Sscc := none
  ssccError : Option (List Char) := none
  gs1Message : Option GS1Message := none
  gs1MessageError : Option (List Char) := none
deriving DecidableEq

/-- `ParseResult._parse_gtin`: skip if the GTIN slot is filled; on failure
record the error; on success store the GTIN and, when it is a GTIN-12 and
the UPC slot is empty, enqueue a UPC job on its canonical 12-digit form.
The Python code catches `ParseError` (and its refinement `ChecksumError`);
`gtinParse` with an enum region never raises `ValueError`
(`gtinParse_enum_region_no_valueError` below), so catching every error here
is faithful. -/
def parseGtinSlot (region : Option RcnRegion) (s : ParseResult)
    (v : List Char) : ParseResult × List Job :=
  if s.gtin.isSome then (s, [])
  else
    match gtinParse v (region.map Sum.inl) with
    | .error e => ({ s with gtin := none, gtinError := some e.message }, [])
    | .ok g =>
      let s' := { s with gtin := some g, gtinError := none }
      if g.format = .gtin12 ∧ s.upc = none then
        (s', [(.upc, g.asGtin12)])
      else (s', [])

/-- `ParseResult._parse_upc`: on success store the UPC and, when the GTIN
slot is empty, enqueue a GTIN job on its UPC-A expansion. -/
def parseUpcSlot (s : ParseResult) (v : List Char) : ParseResult × List Job :=
  if s.upc.isSome then (s, [])
  else
    match upcParse v with
    | .error e => ({ s with upc := none, upcError := some e.message }, [])
    | .ok u =>
      let s' := { s with upc := some u, upcError := none }
      if s.gtin = none then (s', [(.gtin, upcAsUpcA u)]) else (s', [])

/-- `ParseResult._parse_sscc`: no cross-feeding. -/
def parseSsccSlot (s : ParseResult) (v : List Char) : ParseResult × List Job :=
  if s.sscc.isSome then (s, [])
  else
    match ssccParse v with
    | .error e => ({ s with sscc := none, ssccError := some e.message }, [])
    | .ok sc => ({ s with sscc := some sc, ssccError := none }, [])

/-- `ParseResult._parse_gs1_message`: on success store the message and
enqueue an SSCC job for an AI 00 element's `sscc` and a GTIN job for an
AI 01 element's `gtin` (in that order, unconditionally). -/
def parseGS1MessageSlot (region : Option RcnRegion) (seps : List Char)
    (s : ParseResult) (v : List Char) : ParseResult × List Job :=
  if s.gs1Message.isSome then (s, [])
  else
    match gs1MessageParse v region seps with
    | .error e =>
      ({ s with gs1Message := none, gs1MessageError := some e.message }, [])
    | .ok m =>
      let s' := { s with gs1Message := some m, gs1MessageError := none }
      let ssccJobs : List Job :=
        match (gs1MessageGetAi m "00".toList).bind (fun es => es.sscc) with
        | some sc => [(.sscc, sc.value)]
        | none => []
      let gtinJobs : List Job :=
        match (gs1MessageGetAi m "01".toList).bind (fun es => es.gtin) with
        | some g => [(.gtin, g.value)]
        | none => []
      (s', ssccJobs ++ gtinJobs)

/-- One iteration of the dispatcher's `while queue:` loop body. -/
def runJob (region : Option RcnRegion) (seps : List Char) (s : ParseResult)
    (j : Job) : ParseResult × List Job :=
  match j.1 with
  | .gs1message => parseGS1MessageSlot region seps s j.2
  | .gtin => parseGtinSlot region s j.2
  | .sscc => parseSsccSlot s j.2
  | .upc => parseUpcSlot s j.2

/-- The number of still-empty result slots, the key to the dispatcher's
termination: a job either leaves the slots unchanged and enqueues nothing,
or fills one slot and enqueues at most two jobs. -/
def emptyCount (s : ParseResult) : Nat :=
  (if s.gtin.isSome then 0 else 1) + (if s.upc.isSome then 0 else 1) +
    (if s.sscc.isSome then 0 else 1) + (if s.gs1Message.isSome then 0 else 1)

/-- Each dispatcher step either changes nothing and enqueues nothing, or
fills exactly one empty slot and enqueues at most two jobs. -/
theorem runJob_measure (region : Option RcnRegion) (seps : List Char)
    (s : ParseResult) (j : Job) :
    (emptyCount (runJob region seps s j).1 = emptyCount s ∧
      (runJob region seps s j).2 = []) ∨
    (emptyCount (runJob region seps s j).1 + 1 = emptyCount s ∧
      (runJob region seps s j).2.length ≤ 2) := by
  obtain ⟨k, v⟩ := j
  cases k
  case gs1message =>
    cases hgm : s.gs1Message with
    | some m0 => left; simp [runJob, parseGS1MessageSlot, hgm]
    | none =>
      simp only [runJob, parseGS1MessageSlot, hgm, Option.isSome_none,
        Bool.false_eq_true, if_false]
      split
      · left; exact ⟨by simp [emptyCount, hgm]; try omega, rfl⟩
      · next m hm =>
        right
        refine ⟨by simp [emptyCount, hgm]; try omega, ?_⟩
        rcases h00 : (gs1MessageGetAi m ['0', '0']).bind (fun es => es.sscc)
            with _ | sc <;>
          rcases h01 : (gs1MessageGetAi m ['0', '1']).bind (fun es => es.gtin)
            with _ | g <;>
          simp [h00, h01]
  case gtin =>
    cases hg : s.gtin with
    | some g0 => left; simp [runJob, parseGtinSlot, hg]
    | none =>
      simp only [runJob, parseGtinSlot, hg, Option.isSome_none,
        Bool.false_eq_true, if_false]
      split
      · left; exact ⟨by simp [emptyCount, hg]; try omega, rfl⟩
      · right
        constructor
        · split <;> (simp [emptyCount, hg]; try omega)
        · split <;> simp
  case sscc =>
    cases hs : s.sscc with
    | some sc0 => left; simp [runJob, parseSsccSlot, hs]
    | none =>
      simp only [runJob, parseSsccSlot, hs, Option.isSome_none,
        Bool.false_eq_true, if_false]
      split
      · left; exact ⟨by simp [emptyCount, hs]; try omega, rfl⟩
      · right; exact ⟨by simp [emptyCount, hs]; try omega, by simp⟩
  case upc =>
    cases hu : s.upc with
    | some u0 => left; simp [runJob, parseUpcSlot, hu]
    | none =>
      simp only [runJob, parseUpcSlot, hu, Option.isSome_none,
        Bool.false_eq_true, if_false]
      split
      · left; exact ⟨by simp [emptyCount, hu]; try omega, rfl⟩
      · right
        constructor
        · split <;> (simp [emptyCount, hu]; try omega)
        · split <;> simp

/-- The dispatcher's `while queue:` loop, structurally recursive on a fuel
bound: each step strictly decreases `3 * emptyCount + queue length`
(`runJob_measure`), so any fuel above that measure gives the same result
(`dispatchRunF_congr`); the fuel-exhausted branch is never reached from
`dispatchRun`. -/
def dispatchRunF (region : Option RcnRegion) (seps : List Char) :
    Nat → ParseResult → List Job → ParseResult
  | 0, s, _ => s
  | _ + 1, s, [] => s
  | fuel + 1, s, j :: js =>
    dispatchRunF region seps fuel (runJob region seps s j).1
      (js ++ (runJob region seps s j).2)

/-- One dispatcher step strictly decreases `3 * emptyCount + queue length`:
the measure of the new state and queue is below the old measure. -/
theorem runJob_measure_lt (region : Option RcnRegion) (seps : List Char)
    (s : ParseResult) (j : Job) (js : List Job) :
    3 * emptyCount (runJob region seps s j).1 +
      (js ++ (runJob region seps s j).2).length <
      3 * emptyCount s + js.length + 1 := by
  rcases runJob_measure region seps s j with ⟨h3, h4⟩ | ⟨h3, h4⟩
  · rw [h4]
    simp only [List.length_append, List.length_nil, h3]
    omega
  · simp only [List.length_append]
    omega

/-- The drained state does not depend on the fuel, once the fuel exceeds
`3 * emptyCount + queue length`. -/
theorem dispatchRunF_congr (region : Option RcnRegion) (seps : List Char) :
    ∀ (f₁ : Nat) (s : ParseResult) (q : List Job) (f₂ : Nat),
      3 * emptyCount s + q.length < f₁ → 3 * emptyCount s + q.length < f₂ →
      dispatchRunF region seps f₁ s q = dispatchRunF region seps f₂ s q := by
  intro f₁
  induction f₁ with
  | zero => intro s q f₂ h₁; omega
  | succ f ih =>
    intro s q f₂ h₁ h₂
    cases f₂ with
    | zero => omega
    | succ f' =>
      cases q with
      | nil => rfl
      | cons j js =>
        simp only [dispatchRunF]
        simp only [List.length_cons] at h₁ h₂
        have hb := runJob_measure_lt region seps s j js
        exact ih (runJob region seps s j).1 (js ++ (runJob region seps s j).2)
          f' (by omega) (by omega)

/-- The dispatcher's `while queue:` loop: drain the FIFO queue, appending
each step's newly enqueued jobs at the end. -/
def dispatchRun (region : Option RcnRegion) (seps : List Char)
    (s : ParseResult) (q : List Job) : ParseResult :=
  dispatchRunF region seps (3 * emptyCount s + q.length + 1) s q

/-- One FIFO step of the dispatcher: the head job runs, and its newly
enqueued jobs go to the back of the queue. -/
theorem dispatchRun_cons (region : Option RcnRegion) (seps : List Char)
    (s : ParseResult) (j : Job) (js : List Job) :
    dispatchRun region seps s (j :: js) =
      dispatchRun region seps (runJob region seps s j).1
        (js ++ (runJob region seps s j).2) := by
  unfold dispatchRun
  conv =>
    lhs
    rw [show 3 * emptyCount s + (j :: js).length + 1
      = (3 * emptyCount s + js.length + 1) + 1 from by simp; omega]
  simp only [dispatchRunF]
  have hb := runJob_measure_lt region seps s j js
  exact dispatchRunF_congr region seps (3 * emptyCount s + js.length + 1)
    (runJob region seps s j).1 (js ++ (runJob region seps s j).2)
    (3 * emptyCount (runJob region seps s j).1 +
      (js ++ (runJob region seps s j).2).length + 1)
    (by omega) (by omega)

/-- Seeding the work queue (`parse`, lines 59-77): with a Symbology
Identifier whose `gs1_symbology` is in the GTIN set, seed a GTIN job; in
the AI element strings set, seed a GS1 Message job; when nothing was
seeded, seed all four parsers on the value. -/
def seedJobs (symId : Option SymbologyIdentifier) (v : List Char) :
    List Job :=
  let q1 : List Job :=
    match symId with
    | none => []
    | some si =>
      (match si.gs1Symbology with
       | some g => if g ∈ gs1SymbologyWithGtin then [(.gtin, v)] else []
       | none => []) ++
      (match si.gs1Symbology with
       | some g =>
         if g ∈ gs1SymbologyWithAIElementStrings then [(.gs1message, v)] else []
       | none => [])
  if q1.isEmpty then
    [(.gs1message, v), (.gtin, v), (.sscc, v), (.upc, v)]
  else q1

/-- `ParseResult._has_result()`: all four decoded objects are always-truthy
dataclass instances in Python, so `any` is `isSome` on each slot. -/
def hasResult (s : ParseResult) : Bool :=
  s.gtin.isSome || s.upc.isSome || s.sscc.isSome || s.gs1Message.isSome

/-- `ParseResult._get_errors_list()`: the labelled per-parser error lines,
joined with newlines, in the order GTIN, UPC, SSCC, GS1, skipping parsers
with no recorded error. -/
def errorsList (s : ParseResult) : List Char :=
  let items : List (List Char × Option (List Char)) :=
    [("GTIN".toList, s.gtinError), ("UPC".toList, s.upcError),
     ("SSCC".toList, s.ssccError), ("GS1".toList, s.gs1MessageError)]
  List.intercalate [Char.ofNat 10]
    (items.filterMap (fun p =>
      p.2.map (fun e => "- ".toList ++ p.1 ++ ": ".toList ++ e)))

/-- The message of the `ParseError` raised when every attempted decoder
failed: `Failed to parse {value!r}:\n{errors list}`, where `value` is the
input after the Symbology Identifier was stripped. -/
def failMsg (v : List Char) (s : ParseResult) : List Char :=
  "Failed to parse ".toList ++ pyRepr v ++ ":".toList ++ [Char.ofNat 10] ++
    errorsList s

/-- The state after the dispatcher's queue has been drained for an input
(after whitespace and Symbology Identifier stripping succeeded). -/
def dispatchedResult (symId : Option SymbologyIdentifier) (v rest : List Char)
    (region : Option RcnRegion) (seps : List Char) : ParseResult :=
  dispatchRun region seps { value := v, symbologyIdentifier := symId }
    (seedJobs symId rest)

/-- The tail of `parse`: drain the queue and return the result when some
slot was filled, else raise `ParseError` with the labelled error list
(whose `{value!r}` interpolates the input after the Symbology Identifier
was stripped). -/
def finishParse (symId : Option SymbologyIdentifier) (v rest : List Char)
    (region : Option RcnRegion) (seps : List Char) :
    Except BiipError ParseResult :=
  let s := dispatchedResult symId v rest region seps
  if hasResult s then .ok s else .error (.parseError (failMsg rest s))

/-- `parse(value, rcn_region, separator_chars)` from `_parser.py`: strip
whitespace, extract a Symbology Identifier when the value starts with `]`
(a failure there propagates), seed and drain the work queue, and return the
result when some slot was filled, else raise `ParseError` with the labelled
error list. -/
def topParse (value : List Char) (region : Option RcnRegion)
    (seps : List Char) : Except BiipError ParseResult :=
  let v := pyStrip value
  if v.head? = some ']' then
    match symbologyExtract v with
    | .error e => .error e
    | .ok si => finishParse (some si) v (v.drop si.value.length) region seps
  else finishParse none v v region seps

/-! ## Helper lemmas -/

/-- `dropWhile` is the identity when no element satisfies the predicate. -/
theorem dropWhile_eq_self_of_forall {p : Char → Bool} {l : List Char}
    (h : ∀ c ∈ l, p c = false) : l.dropWhile p = l := by
  cases l with
  | nil => rfl
  | cons a t =>
    rw [List.dropWhile_cons, if_neg]
    simp [h a (by simp)]

/-- `pyStrip` is the identity on strings with no Python-whitespace
characters. -/
theorem pyStrip_eq_self {v : List Char}
    (h : ∀ c ∈ v, isPySpace c = false) : pyStrip v = v := by
  unfold pyStrip
  rw [dropWhile_eq_self_of_forall h,
    dropWhile_eq_self_of_forall (fun c hc => h c (List.mem_reverse.mp hc)),
    List.reverse_reverse]

/-- Decimal digits are not Python whitespace. -/
theorem isPySpace_eq_false_of_digit {c : Char}
    (h : isDigitChar c = true) : isPySpace c = false := by
  unfold isDigitChar at h
  unfold isPySpace
  simp only [Bool.and_eq_true, decide_eq_true_eq] at h
  simp only [Bool.or_eq_false_iff, Bool.and_eq_false_iff,
    decide_eq_false_iff_not]
  omega

/-- `pyStrip` is the identity on all-digit strings. -/
theorem pyStrip_of_digits {v : List Char}
    (h : v.all isDigitChar = true) : pyStrip v = v :=
  pyStrip_eq_self (fun c hc =>
    isPySpace_eq_false_of_digit (List.all_eq_true.mp h c hc))

/-- Resolving an `rcn_region` argument that is already an enum member (or
absent) always succeeds with that member. -/
theorem resolveRcnRegion_map_inl (region : Option RcnRegion) :
    resolveRcnRegion (region.map Sum.inl) = .ok region := by
  cases region <;> rfl

/-- `Gtin.parse` called with an enum (or absent) `rcn_region`, as the
dispatcher calls it, never raises `ValueError`; hence the dispatcher's
slot helpers, which model Python's `except ParseError` by catching every
error, are faithful. -/
theorem gtinParse_enum_region_no_valueError (v : List Char)
    (region : Option RcnRegion) (m : List Char) :
    gtinParse v (region.map Sum.inl) ≠ .error (.valueError m) := by
  unfold gtinParse
  dsimp only
  split
  · simp
  · split
    · simp
    · split
      · simp
      · split
        · simp
        · rw [resolveRcnRegion_map_inl]
          simp [Bind.bind, Except.bind]

/-- Evaluation of `Gtin.parse` once the digit, length, and check-digit
guards hold: the result is determined by the RCN classification of the
canonical form. -/
theorem gtinParse_eval {v : List Char} (arg : Option RcnRegionArg)
    (hdig : v.all isDigitChar = true)
    (hlen : v.length = 8 ∨ v.length = 12 ∨ v.length = 13 ∨ v.length = 14)
    (hcd : checkDigitValid v = true) :
    gtinParse v arg =
      match classifyRcn (gtinFormatOf (v.dropWhile (· = '0')).length)
          (asGtin14 v) with
      | none =>
        .ok { value := v,
              format := gtinFormatOf (v.dropWhile (· = '0')).length,
              rcn := none }
      | some usage =>
        (resolveRcnRegion arg).bind (fun r =>
          .ok { value := v,
                format := gtinFormatOf (v.dropWhile (· = '0')).length,
                rcn := some (usage, if usage = .geographical then r else none) }) := by
  unfold gtinParse
  dsimp only
  rw [pyStrip_of_digits hdig, if_neg (not_not_intro hdig),
    if_neg (not_not_intro hlen), if_neg (not_not_intro hcd)]
  rfl

/-- **C1 counterexample**: the claim classifies every RCN-12 with leading
prefix 20-29 as usage COMPANY and every RCN-13 with a leading-2 prefix other
than 20 as COMPANY.  On the code (as pinned by the repository's own test
`test_gtin_parse_may_return_rcn_instance`) the RCN-12 `201111111115`
(prefix 20) and the RCN-13 `2991111111113` (prefix 29) both get usage
GEOGRAPHICAL. -/
theorem c1_counterexample :
    gtinParse "201111111115".toList (some (Sum.inl RcnRegion.sweden)) =
      .ok { value := "201111111115".toList, format := .gtin12,
            rcn := some (.geographical, some .sweden) } ∧
    gtinParse "2991111111113".toList none =
      .ok { value := "2991111111113".toList, format := .gtin13,
            rcn := some (.geographical, none) } ∧
    RcnUsage.geographical ≠ RcnUsage.company :=
  ⟨by decide, by decide, by decide⟩

/-- **C1 (amended)**: for every all-digit value with a valid check digit
parsed by `Gtin.parse`: a 12-digit value with leading digit 2 (so the RCN-12
range 20-29) is an RCN with usage GEOGRAPHICAL carrying the supplied region;
a 12-digit value with leading digit 4 (range 40-49) is an RCN with usage
COMPANY and no region; a 13-digit value with leading digit 2 (so every
RCN-13 prefix 20-29) is an RCN with usage GEOGRAPHICAL carrying the supplied
region. -/
theorem c1_rcn_usage_amended (v : List Char) (region : Option RcnRegion)
    (hdig : v.all isDigitChar = true) (hcd : checkDigitValid v = true) :
    (v.length = 12 → v.head? = some '2' →
      gtinParse v (region.map Sum.inl) =
        .ok { value := v, format := .gtin12,
              rcn := some (.geographical, region) }) ∧
    (v.length = 12 → v.head? = some '4' →
      gtinParse v (region.map Sum.inl) =
        .ok { value := v, format := .gtin12,
              rcn := some (.company, none) }) ∧
    (v.length = 13 → v.head? = some '2' →
      gtinParse v (region.map Sum.inl) =
        .ok { value := v, format := .gtin13,
              rcn := some (.geographical, region) }) := by
  refine ⟨?_, ?_, ?_⟩ <;> intro hlen hh <;>
    (cases v with
     | nil => simp at hh
     | cons c t => ?_) <;>
    simp only [List.head?_cons, Option.some.injEq] at hh <;> subst hh <;>
    rw [gtinParse_eval _ hdig (by omega) hcd]
  · have hdw : List.dropWhile (fun x => decide (x = '0')) ('2' :: t) = '2' :: t := by
      rw [List.dropWhile_cons, if_neg (by decide)]
    rw [hdw, hlen, show gtinFormatOf 12 = GtinFormat.gtin12 from rfl]
    have hc : classifyRcn .gtin12 (asGtin14 ('2' :: t)) = some .geographical := by
      unfold asGtin14
      rw [hlen]
      rfl
    rw [hc, resolveRcnRegion_map_inl]
    rfl
  · have hdw : List.dropWhile (fun x => decide (x = '0')) ('4' :: t) = '4' :: t := by
      rw [List.dropWhile_cons, if_neg (by decide)]
    rw [hdw, hlen, show gtinFormatOf 12 = GtinFormat.gtin12 from rfl]
    have hc : classifyRcn .gtin12 (asGtin14 ('4' :: t)) = some .company := by
      unfold asGtin14
      rw [hlen]
      rfl
    rw [hc, resolveRcnRegion_map_inl]
    rfl
  · have hdw : List.dropWhile (fun x => decide (x = '0')) ('2' :: t) = '2' :: t := by
      rw [List.dropWhile_cons, if_neg (by decide)]
    rw [hdw, hlen, show gtinFormatOf 13 = GtinFormat.gtin13 from rfl]
    have hc : classifyRcn .gtin13 (asGtin14 ('2' :: t)) = some .geographical := by
      unfold asGtin14
      rw [hlen]
      rfl
    rw [hc, resolveRcnRegion_map_inl]
    rfl

/-- Witness for `c1_rcn_usage_amended`: the repository's test rows
`201111111115`, `401111111119`, and `2991111111113` with region Sweden. -/
theorem c1_rcn_usage_amended_witness :
    ("201111111115".toList.all isDigitChar = true ∧
      checkDigitValid "201111111115".toList = true) ∧
    gtinParse "201111111115".toList ((some RcnRegion.sweden).map Sum.inl) =
      .ok { value := "201111111115".toList, format := .gtin12,
            rcn := some (.geographical, some .sweden) } ∧
    gtinParse "401111111119".toList ((some RcnRegion.sweden).map Sum.inl) =
      .ok { value := "401111111119".toList, format := .gtin12,
            rcn := some (.company, none) } ∧
    gtinParse "2991111111113".toList ((some RcnRegion.sweden).map Sum.inl) =
      .ok { value := "2991111111113".toList, format := .gtin13,
            rcn := some (.geographical, some .sweden) } :=
  ⟨⟨by decide, by decide⟩,
    (c1_rcn_usage_amended "201111111115".toList (some .sweden)
      (by decide) (by decide)).1 (by decide) (by decide),
    (c1_rcn_usage_amended "401111111119".toList (some .sweden)
      (by decide) (by decide)).2.1 (by decide) (by decide),
    (c1_rcn_usage_amended "2991111111113".toList (some .sweden)
      (by decide) (by decide)).2.2 (by decide) (by decide)⟩

/-- **C7 counterexample**: the claim says a 14-digit value parsed by
`Gtin.parse` is never returned as an RCN and always has format GTIN-14.
The 14-digit value `02991111111113` (leading zero, so 13 significant
digits wrapping the valid RCN-13 `2991111111113`) is returned as an RCN
with format GTIN-13. -/
theorem c7_counterexample :
    ("02991111111113".toList.length = 14 ∧
      "02991111111113".toList.all isDigitChar = true) ∧
    gtinParse "02991111111113".toList none =
      .ok { value := "02991111111113".toList, format := .gtin13,
            rcn := some (.geographical, none) } :=
  ⟨⟨by decide, by decide⟩, by decide⟩

/-- **C7 (amended)**: a 14-digit value with a nonzero leading digit (that
is, one whose significant-digit form is truly 14 digits) parsed by
`Gtin.parse` is never returned as an RCN, even when its trailing 13 digits
form a valid RCN-13; the result is a plain GTIN with format GTIN-14. -/
theorem c7_gtin14_amended (v : List Char) (arg : Option RcnRegionArg)
    (hdig : v.all isDigitChar = true) (hcd : checkDigitValid v = true)
    (hlen : v.length = 14) (h0 : v.head? ≠ some '0') :
    gtinParse v arg = .ok { value := v, format := .gtin14, rcn := none } := by
  cases v with
  | nil => simp at hlen
  | cons c t =>
    rw [gtinParse_eval _ hdig (by omega) hcd]
    have hdw : List.dropWhile (fun x => decide (x = '0')) (c :: t) = c :: t := by
      rw [List.dropWhile_cons, if_neg]
      simp only [List.head?_cons, ne_eq, Option.some.injEq] at h0
      simp [h0]
    rw [hdw, hlen, show gtinFormatOf 14 = GtinFormat.gtin14 from rfl]
    rfl

/-- Witness for `c7_gtin14_amended`: the test value `12991111111110` from
`test_gtin_14_with_rcn_prefix_is_not_an_rcn` (packaging level 1 wrapping a
valid RCN-13). -/
theorem c7_gtin14_amended_witness :
    ("12991111111110".toList.all isDigitChar = true ∧
      checkDigitValid "12991111111110".toList = true ∧
      "12991111111110".toList.length = 14 ∧
      "12991111111110".toList.head? ≠ some '0') ∧
    gtinParse "12991111111110".toList none =
      .ok { value := "12991111111110".toList, format := .gtin14,
            rcn := none } :=
  ⟨⟨by decide, by decide, by decide, by decide⟩,
    c7_gtin14_amended "12991111111110".toList none
      (by decide) (by decide) (by decide) (by decide)⟩

/-- **C9**: `Gtin.parse` accepts the `rcn_region` argument as any of the
nine lowercase ISO 3166-1 alpha-2 strings (resolving it to the matching
enum member, observable in the parsed RCN's region), and a string that
names no supported region raises `ValueError` — an error kind distinct
from `ParseError` and its refinement (`isParseError` is false). -/
theorem c9_region_lookup :
    (∀ r : RcnRegion,
      gtinParse "0211111111114".toList (some (Sum.inr r.code)) =
        .ok { value := "0211111111114".toList, format := .gtin12,
              rcn := some (.geographical, some r) }) ∧
    (∀ s : List Char, lookupRcnRegion s = none →
      gtinParse "2311111112345".toList (some (Sum.inr s)) =
        .error (.valueError (pyRepr s ++ " is not a valid RcnRegion".toList)) ∧
      BiipError.isParseError
        (.valueError (pyRepr s ++ " is not a valid RcnRegion".toList)) = false) := by
  constructor
  · intro r
    cases r <;> decide
  · intro s h
    have key : ∀ arg, gtinParse "2311111112345".toList arg =
        (resolveRcnRegion arg).bind (fun rr =>
          .ok { value := "2311111112345".toList, format := .gtin13,
                rcn := some (.geographical, rr) }) := fun arg => rfl
    refine ⟨?_, rfl⟩
    rw [key]
    simp only [resolveRcnRegion, h]
    rfl

/-- Witness for `c9_region_lookup`: the unknown region string `foo` from
`test_fails_when_rcn_region_is_unknown_string`. -/
theorem c9_region_lookup_witness :
    lookupRcnRegion "foo".toList = none ∧
    gtinParse "2311111112345".toList (some (Sum.inr "foo".toList)) =
      .error (.valueError
        (pyRepr "foo".toList ++ " is not a valid RcnRegion".toList)) :=
  ⟨by decide, (c9_region_lookup.2 "foo".toList (by decide)).1⟩

/-- `pyStrip` maps all-whitespace strings to the empty string. -/
theorem pyStrip_eq_nil_of_space {v : List Char}
    (h : v.all isPySpace = true) : pyStrip v = [] := by
  unfold pyStrip
  rw [List.dropWhile_eq_nil_iff.mpr
    (fun x hx => List.all_eq_true.mp h x hx)]
  rfl

/-- **C10**: for the empty string and every whitespace-only input,
`GS1Message.parse` returns (without raising) a message with an empty
Element String list, and the top-level `parse` of such an input succeeds:
its `gs1_message` slot holds that zero-element message (Python's `any`
sees the dataclass instance as truthy) while `gtin`, `upc`, and `sscc`
are unset. -/
theorem c10_empty_input :
    (∀ (region : Option RcnRegion) (seps v : List Char),
      v.all isPySpace = true →
      gs1MessageParse v region seps = .ok ⟨[], []⟩) ∧
    (∀ v : List Char, v.all isPySpace = true →
      ∃ r, topParse v none defaultSeparatorChars = .ok r ∧
        r.gs1Message = some ⟨[], []⟩ ∧
        r.gtin = none ∧ r.upc = none ∧ r.sscc = none) := by
  constructor
  · intro region seps v h
    unfold gs1MessageParse
    dsimp only
    rw [pyStrip_eq_nil_of_space h]
    rfl
  · intro v h
    refine ⟨dispatchedResult none [] [] none defaultSeparatorChars,
      ?_, rfl, rfl, rfl, rfl⟩
    unfold topParse
    dsimp only
    rw [pyStrip_eq_nil_of_space h]
    rfl

/-- Witness for `c10_empty_input`: a single space. -/
theorem c10_empty_input_witness :
    (" ".toList.all isPySpace = true) ∧
    gs1MessageParse " ".toList none defaultSeparatorChars = .ok ⟨[], []⟩ ∧
    ∃ r, topParse " ".toList none defaultSeparatorChars = .ok r ∧
      r.gs1Message = some ⟨[], []⟩ ∧
      r.gtin = none ∧ r.upc = none ∧ r.sscc = none :=
  ⟨by decide,
    c10_empty_input.1 none defaultSeparatorChars " ".toList (by decide),
    c10_empty_input.2 " ".toList (by decide)⟩

/-- **C2**: `parse` returns a `ParseResult` only when at least one of the
four result slots was successfully decoded; when the dispatcher ran (that
is, any Symbology Identifier prefix was extracted without error) and every
attempted decoder failed, it raises a `ParseError` whose message is the
labelled concatenation of the per-parser error strings over the drained
result state — so a single decoder failing never by itself makes `parse`
raise: the outcome depends only on whether some slot was filled. -/
theorem c2_parse_success_iff (value : List Char) (region : Option RcnRegion)
    (seps : List Char) :
    (∀ r, topParse value region seps = .ok r → hasResult r = true) ∧
    ((pyStrip value).head? ≠ some ']' →
      (hasResult (dispatchedResult none (pyStrip value) (pyStrip value)
          region seps) = true →
        topParse value region seps =
          .ok (dispatchedResult none (pyStrip value) (pyStrip value)
            region seps)) ∧
      (hasResult (dispatchedResult none (pyStrip value) (pyStrip value)
          region seps) = false →
        topParse value region seps =
          .error (.parseError (failMsg (pyStrip value)
            (dispatchedResult none (pyStrip value) (pyStrip value)
              region seps))))) ∧
    (∀ si, (pyStrip value).head? = some ']' →
      symbologyExtract (pyStrip value) = .ok si →
      (hasResult (dispatchedResult (some si) (pyStrip value)
          ((pyStrip value).drop si.value.length) region seps) = true →
        topParse value region seps =
          .ok (dispatchedResult (some si) (pyStrip value)
            ((pyStrip value).drop si.value.length) region seps)) ∧
      (hasResult (dispatchedResult (some si) (pyStrip value)
          ((pyStrip value).drop si.value.length) region seps) = false →
        topParse value region seps =
          .error (.parseError (failMsg
            ((pyStrip value).drop si.value.length)
            (dispatchedResult (some si) (pyStrip value)
              ((pyStrip value).drop si.value.length) region seps))))) := by
  refine ⟨?_, ?_, ?_⟩
  · intro r h
    unfold topParse at h
    dsimp only at h
    split at h
    · split at h
      · exact absurd h (by simp)
      · unfold finishParse at h
        dsimp only at h
        split at h
        · cases h
          assumption
        · exact absurd h (by simp)
    · unfold finishParse at h
      dsimp only at h
      split at h
      · cases h
        assumption
      · exact absurd h (by simp)
  · intro hh
    unfold topParse
    dsimp only
    rw [if_neg hh]
    unfold finishParse
    dsimp only
    constructor
    · intro hres
      rw [if_pos hres]
    · intro hres
      rw [if_neg (by simp [hres])]
  · intro si hh hsym
    unfold topParse
    dsimp only
    rw [if_pos hh]
    simp only [hsym]
    unfold finishParse
    dsimp only
    constructor
    · intro hres
      rw [if_pos hres]
    · intro hres
      rw [if_neg (by simp [hres])]

/-! ### Characterization of a successful Element String extraction -/

/-- A successful exact catalog lookup returns the entry with that AI. -/
theorem lookupAIExact_spec {s : List Char} {e : GS1ApplicationIdentifier}
    (h : lookupAIExact s = some e) : e ∈ aiCatalog ∧ e.ai = s := by
  unfold lookupAIExact at h
  refine ⟨List.mem_of_find?_eq_some h, ?_⟩
  have := List.find?_some h
  simpa using this

/-- The AI found by longest-prefix lookup is literally the head of the
buffer. -/
theorem findLongestAI_take {r : List Char} {e : GS1ApplicationIdentifier}
    (h : findLongestAI r = some e) : r.take e.ai.length = e.ai := by
  have key : ∀ j : Nat, lookupAIExact (r.take j) = some e →
      r.take e.ai.length = e.ai := by
    intro j hj
    have he := (lookupAIExact_spec hj).2
    have hlen : e.ai.length = min j r.length := by
      rw [he, List.length_take]
    have : r.take e.ai.length = (r.take j).take e.ai.length := by
      rw [List.take_take]
      congr 1
      omega
    rw [this, ← he]
    exact List.take_length _
  unfold findLongestAI at h
  split at h
  · next h4 => cases h; exact key 4 h4
  · split at h
    · next h3 => cases h; exact key 3 h3
    · exact key 2 h

/-- Dropping the consumed `takeWhile` prefix leaves the `dropWhile`
remainder. -/
theorem drop_takeWhile_length (p : Char → Bool) :
    ∀ l : List Char, l.drop (l.takeWhile p).length = l.dropWhile p := by
  intro l
  induction l with
  | nil => rfl
  | cons a t ih =>
    by_cases hp : p a
    · simp [List.takeWhile_cons, List.dropWhile_cons, hp, ih]
    · simp [List.takeWhile_cons, List.dropWhile_cons, hp]

/-- The head of a `dropWhile` remainder fails the predicate. -/
theorem dropWhile_head_false {p : Char → Bool} :
    ∀ {l : List Char} {c : Char} {t : List Char},
      l.dropWhile p = c :: t → p c = false := by
  intro l
  induction l with
  | nil => intro c t h; simp at h
  | cons a t' ih =>
    intro c t h
    rw [List.dropWhile_cons] at h
    split at h
    · exact ih h
    · next hp =>
      cases h
      simpa using hp

/-- Reading the fixed segments consumes a literal prefix of the buffer. -/
theorem readFixedSegs_append :
    ∀ (fs : List (SegClass × Nat)) (buf v r' : List Char),
      readFixedSegs fs buf = some (v, r') → buf = v ++ r' := by
  intro fs
  induction fs with
  | nil =>
    intro buf v r' h
    simp only [readFixedSegs, Option.some.injEq, Prod.mk.injEq] at h
    rw [← h.1, ← h.2]
    rfl
  | cons seg rest ih =>
    intro buf v r' h
    obtain ⟨cls, n⟩ := seg
    simp only [readFixedSegs] at h
    split at h
    · next hck =>
      cases hrec : readFixedSegs rest (buf.drop n) with
      | none => rw [hrec] at h; simp at h
      | some p =>
        obtain ⟨v2, r2⟩ := p
        rw [hrec] at h
        simp only [Option.some.injEq, Prod.mk.injEq] at h
        have hb := ih (buf.drop n) v2 r2 hrec
        rw [← h.1, ← h.2, List.append_assoc, ← hb, List.take_append_drop]
    · simp at h

/-- Reading a variable-length segment consumes a literal prefix of the
buffer, and stops either at the maximum width, at the end of the buffer,
or just before a separator character. -/
theorem readVarSeg_spec {cls : SegClass} {mx : Nat} {buf seps : List Char}
    {chunk rest₂ : List Char}
    (h : readVarSeg cls mx buf seps = some (chunk, rest₂)) :
    buf = chunk ++ rest₂ ∧ chunk.length ≤ mx ∧ chunk ≠ [] ∧
      chunk.all (segClassAccepts cls) = true ∧
      (∀ c ∈ chunk, seps.contains c = false) ∧
      (chunk.length = mx ∨ rest₂ = [] ∨
        ∃ c t, rest₂ = c :: t ∧ seps.contains c = true) := by
  unfold readVarSeg at h
  dsimp only at h
  split at h
  · next hck =>
    simp only [Option.some.injEq, Prod.mk.injEq] at h
    obtain ⟨h1, h2⟩ := h
    rw [h1] at hck h2
    have hpre : chunk <+: buf := by
      rw [← h1]
      have hp1 : List.take mx (buf.takeWhile (notSep seps)) <+:
          buf.takeWhile (notSep seps) := List.take_prefix mx _
      have hp2 : buf.takeWhile (notSep seps) <+: buf :=
        List.takeWhile_prefix (notSep seps)
      exact hp1.trans hp2
    have htake : buf.take chunk.length = chunk :=
      (List.prefix_iff_eq_take.mp hpre).symm
    refine ⟨?_, ?_, hck.1, hck.2, ?_, ?_⟩
    · rw [← h2]
      nth_rewrite 1 [← htake]
      exact (List.take_append_drop _ _).symm
    · rw [← h1, List.length_take]; omega
    · intro c hc
      rw [← h1] at hc
      have := List.mem_takeWhile_imp (List.mem_of_mem_take hc)
      simp only [notSep, Bool.not_eq_true'] at this
      exact this
    · by_cases hl : mx ≤ (buf.takeWhile (notSep seps)).length
      · left
        rw [← h1, List.length_take]
        omega
      · right
        have hch : chunk = buf.takeWhile (notSep seps) := by
          rw [← h1]
          exact List.take_of_length_le (by omega)
        have hrw : rest₂ = buf.dropWhile (notSep seps) := by
          rw [← h2, hch, drop_takeWhile_length]
        cases hr2 : rest₂ with
        | nil => left; rfl
        | cons c t =>
          right
          refine ⟨c, t, rfl, ?_⟩
          rw [hrw] at hr2
          have := dropWhile_head_false hr2
          simp only [notSep, Bool.not_eq_false'] at this
          exact this
  · simp at h

/-- Every catalog AI is either fixed-only or a single variable-length
segment; `fnc1_required` is true exactly when the format is
variable-length (spec §4.3). -/
theorem aiCatalog_shape :
    ∀ e ∈ aiCatalog, (e.varSeg.isSome → e.fixedSegs = []) ∧
      e.fnc1Required = e.varSeg.isSome := by decide

/-- A successful extraction, unfolded: the AI is the longest catalog match,
the value was read by the segment reader, and the domain fields are its
decode. -/
theorem gs1ExtractElement_ok_spec {r : List Char} {region : Option RcnRegion}
    {seps : List Char} {es : GS1ElementString}
    (h : gs1ExtractElement r region seps = .ok es) :
    findLongestAI r = some es.ai ∧
    readSegs es.ai (r.drop es.ai.ai.length) seps =
      some (es.value, r.drop (esLen es)) ∧
    decodeDomain es.ai es.value region = .ok (es.gtin, es.sscc) := by
  unfold gs1ExtractElement at h
  split at h
  · exact absurd h (by simp)
  · next entry hf =>
    split at h
    · exact absurd h (by simp)
    · next val rest₂ hs =>
      cases hdd : decodeDomain entry val region with
      | error e => rw [hdd] at h; simp [Except.map] at h
      | ok q =>
        rw [hdd] at h
        simp only [Except.map, Except.ok.injEq] at h
        have hes : es = ⟨entry, val, q.1, q.2⟩ := h.symm
        subst hes
        dsimp only
        have happ : r.drop entry.ai.length = val ++ rest₂ := by
          unfold readSegs at hs
          cases hfx : readFixedSegs entry.fixedSegs (r.drop entry.ai.length) with
          | none => rw [hfx] at hs; simp at hs
          | some p =>
            obtain ⟨v1, r1⟩ := p
            rw [hfx] at hs
            dsimp only at hs
            have h1 := readFixedSegs_append _ _ _ _ hfx
            cases hv : entry.varSeg with
            | none =>
              rw [hv] at hs
              dsimp only at hs
              simp only [Option.some.injEq, Prod.mk.injEq] at hs
              rw [h1, hs.1, hs.2]
            | some sv =>
              obtain ⟨cls, mx⟩ := sv
              rw [hv] at hs
              dsimp only at hs
              cases hvr : readVarSeg cls mx r1 seps with
              | none => rw [hvr] at hs; simp at hs
              | some p2 =>
                obtain ⟨v2, r2⟩ := p2
                rw [hvr] at hs
                dsimp only at hs
                simp only [Option.some.injEq, Prod.mk.injEq] at hs
                have h2 := (readVarSeg_spec hvr).1
                rw [h1, h2, ← hs.1, ← hs.2, List.append_assoc]
        have hrest : r.drop (esLen ⟨entry, val, q.1, q.2⟩) = rest₂ := by
          show r.drop (entry.ai.length + val.length) = rest₂
          calc r.drop (entry.ai.length + val.length)
              = (r.drop entry.ai.length).drop val.length := by
                rw [List.drop_drop, Nat.add_comm]
            _ = (val ++ rest₂).drop val.length := by rw [happ]
            _ = rest₂ := List.drop_left _ _
        rw [hrest]
        exact ⟨hf, hs, hdd⟩

/-- The segment reader consumes a literal prefix of its buffer. -/
theorem readSegs_append {entry : GS1ApplicationIdentifier}
    {buf seps v r' : List Char}
    (h : readSegs entry buf seps = some (v, r')) : buf = v ++ r' := by
  unfold readSegs at h
  cases hfx : readFixedSegs entry.fixedSegs buf with
  | none => rw [hfx] at h; simp at h
  | some p =>
    obtain ⟨v1, r1⟩ := p
    rw [hfx] at h
    dsimp only at h
    have h1 := readFixedSegs_append _ _ _ _ hfx
    cases hv : entry.varSeg with
    | none =>
      rw [hv] at h
      dsimp only at h
      simp only [Option.some.injEq, Prod.mk.injEq] at h
      rw [h1, h.1, h.2]
    | some sv =>
      obtain ⟨cls, mx⟩ := sv
      rw [hv] at h
      dsimp only at h
      cases hvr : readVarSeg cls mx r1 seps with
      | none => rw [hvr] at h; simp at h
      | some p2 =>
        obtain ⟨v2, r2⟩ := p2
        rw [hvr] at h
        dsimp only at h
        simp only [Option.some.injEq, Prod.mk.injEq] at h
        rw [h1, (readVarSeg_spec hvr).1, ← h.1, ← h.2, List.append_assoc]

/-- A successful extraction consumes literally its AI digits followed by
its raw value: the buffer decomposes as AI ++ value ++ remainder. -/
theorem gs1ExtractElement_decompose {r : List Char}
    {region : Option RcnRegion} {seps : List Char} {es : GS1ElementString}
    (h : gs1ExtractElement r region seps = .ok es) :
    r = es.ai.ai ++ es.value ++ r.drop (esLen es) := by
  obtain ⟨hf, hs, -⟩ := gs1ExtractElement_ok_spec h
  have h1 : r.take es.ai.ai.length = es.ai.ai := findLongestAI_take hf
  have h2 : r.drop es.ai.ai.length = es.value ++ r.drop (esLen es) :=
    readSegs_append hs
  calc r = r.take es.ai.ai.length ++ r.drop es.ai.ai.length :=
        (List.take_append_drop _ _).symm
    _ = es.ai.ai ++ (es.value ++ r.drop (esLen es)) := by rw [h1, h2]
    _ = es.ai.ai ++ es.value ++ r.drop (esLen es) := by
        rw [List.append_assoc]

/-- For a variable-length (FNC1-required) AI, a successful extraction stops
at the maximum width, at the end of the buffer, or just before a separator
character. -/
theorem gs1ExtractElement_var_boundary {r : List Char}
    {region : Option RcnRegion} {seps : List Char} {es : GS1ElementString}
    (h : gs1ExtractElement r region seps = .ok es)
    {cls : SegClass} {mx : Nat} (hv : es.ai.varSeg = some (cls, mx)) :
    es.value.length = mx ∨ r.drop (esLen es) = [] ∨
      ∃ c t, r.drop (esLen es) = c :: t ∧ seps.contains c = true := by
  obtain ⟨hf, hs, -⟩ := gs1ExtractElement_ok_spec h
  have hmem := gs1ExtractElement_ai_mem h
  have hfx0 : es.ai.fixedSegs = [] :=
    (aiCatalog_shape es.ai hmem).1 (by rw [hv]; rfl)
  unfold readSegs at hs
  rw [hfx0] at hs
  simp only [readFixedSegs] at hs
  rw [hv] at hs
  dsimp only at hs
  cases hvr : readVarSeg cls mx (r.drop es.ai.ai.length) seps with
  | none => rw [hvr] at hs; simp at hs
  | some p2 =>
    obtain ⟨v2, r2⟩ := p2
    rw [hvr] at hs
    dsimp only at hs
    simp only [Option.some.injEq, Prod.mk.injEq, List.nil_append] at hs
    obtain ⟨hval, hrest⟩ := hs
    have hb := (readVarSeg_spec hvr).2.2.2.2.2
    rw [hval, hrest] at hb
    exact hb

/-- The last character of a stripped value is never Python whitespace (and
in particular never the GS separator). -/
theorem pyStrip_getLast_not_space {v : List Char} {c : Char}
    (h : (pyStrip v).getLast? = some c) : isPySpace c = false := by
  unfold pyStrip at h
  rw [List.getLast?_reverse] at h
  cases hdw : (v.dropWhile isPySpace).reverse.dropWhile isPySpace with
  | nil => rw [hdw] at h; simp at h
  | cons a t =>
    rw [hdw] at h
    simp only [List.head?_cons, Option.some.injEq] at h
    rw [← h]
    exact dropWhile_head_false hdw

/-- The loop on a nonempty buffer yields a nonempty Element String list. -/
theorem parseElems_ne_nil {orig : List Char} {region : Option RcnRegion}
    {seps : List Char} {r₀ : Char} {rrest : List Char}
    {elems : List GS1ElementString}
    (h : parseElems orig region seps (r₀ :: rrest) = .ok elems) :
    elems ≠ [] := by
  rw [parseElems_cons] at h
  cases hx : gs1ExtractElement (r₀ :: rrest) region seps with
  | error e => rw [hx] at h; simp at h
  | ok es =>
    rw [hx] at h
    dsimp only at h
    cases hd : (r₀ :: rrest).drop (esLen es) with
    | nil =>
      rw [hd] at h
      dsimp only at h
      cases h
      simp
    | cons c tail =>
      rw [hd] at h
      dsimp only at h
      split at h
      · split at h
        · cases hpt : parseElems orig region seps tail with
          | error e => rw [hpt] at h; simp [Except.map] at h
          | ok l =>
            rw [hpt] at h
            simp only [Except.map, Except.ok.injEq] at h
            rw [← h]
            simp
        · simp at h
      · cases hpt : parseElems orig region seps (c :: tail) with
        | error e => rw [hpt] at h; simp [Except.map] at h
        | ok l =>
          rw [hpt] at h
          simp only [Except.map, Except.ok.injEq] at h
          rw [← h]
          simp

/-- The claim's reconstruction of an input from its Element Strings: each
AI's digits, its raw value, and one separator character when its AI is
FNC1-required and it is not the last element. -/
def reconstructClaim : List GS1ElementString → List Char
  | [] => []
  | [es] => es.ai.ai ++ es.value
  | es :: rest =>
    es.ai.ai ++ es.value ++ (if es.ai.fnc1Required then [gsChar] else []) ++
      reconstructClaim rest

/-- The last element of a list with a nonempty suffix is the suffix's. -/
theorem getLast?_suffix {pre suf : List Char} (h : suf ≠ []) :
    (pre ++ suf).getLast? = suf.getLast? :=
  List.getLast?_append_of_ne_nil pre h

/-- Core of C6: on a buffer that does not end in the separator and whose
variable-length values all stop short of their maximum, the loop's Element
Strings reconstruct the buffer exactly (under the default separators). -/
theorem parseElems_reconstruct (orig : List Char) (region : Option RcnRegion) :
    ∀ (n : Nat) (rest : List Char), rest.length ≤ n →
      ∀ elems : List GS1ElementString,
      parseElems orig region defaultSeparatorChars rest = .ok elems →
      rest.getLast? ≠ some gsChar →
      (∀ es ∈ elems, ∀ cls mx, es.ai.varSeg = some (cls, mx) →
        es.value.length < mx) →
      reconstructClaim elems = rest := by
  intro n
  induction n with
  | zero =>
    intro rest hlen elems hok hlast hmax
    have hr : rest = [] := List.eq_nil_of_length_eq_zero (Nat.le_zero.mp hlen)
    subst hr
    have he : (Except.ok [] : Except BiipError (List GS1ElementString))
        = .ok elems := hok
    cases he
    rfl
  | succ n ih =>
    intro rest hlen elems hok hlast hmax
    cases rest with
    | nil =>
      have he : (Except.ok [] : Except BiipError (List GS1ElementString))
          = .ok elems := hok
      cases he
      rfl
    | cons r₀ rrest =>
      rw [parseElems_cons] at hok
      cases hx : gs1ExtractElement (r₀ :: rrest) region defaultSeparatorChars with
      | error e => rw [hx] at hok; simp at hok
      | ok es =>
        rw [hx] at hok
        dsimp only at hok
        have hpos := gs1ExtractElement_esLen_pos hx
        have hdecomp := gs1ExtractElement_decompose hx
        have hlendrop : ((r₀ :: rrest).drop (esLen es)).length
            = (r₀ :: rrest).length - esLen es := List.length_drop _ _
        cases hd : (r₀ :: rrest).drop (esLen es) with
        | nil =>
          rw [hd] at hok
          dsimp only at hok
          cases hok
          rw [hd, List.append_nil] at hdecomp
          exact hdecomp.symm
        | cons c tail =>
          rw [hd] at hok
          dsimp only at hok
          rw [hd] at hlendrop
          rw [hd] at hdecomp
          simp only [List.length_cons] at hlendrop hlen
          by_cases hsep : defaultSeparatorChars.contains c
          · have hc : c = gsChar := by
              simpa [defaultSeparatorChars] using hsep
            rw [if_pos hsep] at hok
            by_cases hf : es.ai.fnc1Required
            · rw [if_pos hf] at hok
              cases hpt : parseElems orig region defaultSeparatorChars tail with
              | error e => rw [hpt] at hok; simp [Except.map] at hok
              | ok elems' =>
                rw [hpt] at hok
                simp only [Except.map, Except.ok.injEq] at hok
                subst hok
                have htail : tail ≠ [] := by
                  intro h0
                  subst h0
                  apply hlast
                  rw [hdecomp, hc]
                  rw [show es.ai.ai ++ es.value ++ [gsChar]
                    = (es.ai.ai ++ es.value) ++ [gsChar] from by
                      rw [List.append_assoc]]
                  rw [getLast?_suffix (by simp)]
                  rfl
                obtain ⟨t0, ts, hts⟩ := List.exists_cons_of_ne_nil htail
                have hrest_last : (r₀ :: rrest).getLast? = tail.getLast? := by
                  rw [hdecomp,
                    show c :: tail = [c] ++ tail from rfl,
                    show es.ai.ai ++ es.value ++ ([c] ++ tail)
                      = (es.ai.ai ++ (es.value ++ [c])) ++ tail from by
                        simp [List.append_assoc]]
                  exact getLast?_suffix htail
                have hne : elems' ≠ [] := by
                  rw [hts] at hpt
                  exact parseElems_ne_nil hpt
                obtain ⟨e2, es2, hes2⟩ := List.exists_cons_of_ne_nil hne
                have hrec := ih tail (by omega) elems' hpt
                  (by rw [← hrest_last]; exact hlast)
                  (fun es' hm => hmax es' (List.mem_cons_of_mem es hm))
                rw [hes2] at hrec ⊢
                show es.ai.ai ++ es.value ++
                    (if es.ai.fnc1Required then [gsChar] else []) ++
                    reconstructClaim (e2 :: es2) = r₀ :: rrest
                rw [if_pos hf, hrec, hdecomp, hc]
                simp [List.append_assoc]
            · rw [if_neg hf] at hok
              simp at hok
          · rw [if_neg hsep] at hok
            cases hpt : parseElems orig region defaultSeparatorChars
                (c :: tail) with
            | error e => rw [hpt] at hok; simp [Except.map] at hok
            | ok elems' =>
              rw [hpt] at hok
              simp only [Except.map, Except.ok.injEq] at hok
              subst hok
              have hfnot : es.ai.fnc1Required = false := by
                cases hff : es.ai.fnc1Required with
                | false => rfl
                | true =>
                  exfalso
                  have hshape := aiCatalog_shape es.ai
                    (gs1ExtractElement_ai_mem hx)
                  have hvs : es.ai.varSeg.isSome = true := by
                    rw [← hshape.2]; exact hff
                  obtain ⟨⟨cls, mx⟩, hv⟩ := Option.isSome_iff_exists.mp hvs
                  rcases gs1ExtractElement_var_boundary hx hv with hb | hb | hb
                  · have := hmax es (by simp) cls mx hv
                    omega
                  · rw [hd] at hb; simp at hb
                  · obtain ⟨c', t', hb1, hb2⟩ := hb
                    rw [hd] at hb1
                    cases hb1
                    rw [hb2] at hsep
                    exact hsep rfl
              have hrest_last : (r₀ :: rrest).getLast?
                  = (c :: tail).getLast? := by
                rw [hdecomp,
                  show es.ai.ai ++ es.value ++ (c :: tail)
                    = (es.ai.ai ++ es.value) ++ (c :: tail) from by
                      rw [List.append_assoc]]
                exact getLast?_suffix (by simp)
              have hne : elems' ≠ [] := parseElems_ne_nil hpt
              obtain ⟨e2, es2, hes2⟩ := List.exists_cons_of_ne_nil hne
              have hrec := ih (c :: tail) (by simp; omega) elems' hpt
                (by rw [← hrest_last]; exact hlast)
                (fun es' hm => hmax es' (List.mem_cons_of_mem es hm))
              rw [hes2] at hrec ⊢
              show es.ai.ai ++ es.value ++
                  (if es.ai.fnc1Required then [gsChar] else []) ++
                  reconstructClaim (e2 :: es2) = r₀ :: rrest
              rw [hfnot, if_neg (by simp), hrec, hdecomp]
              simp

/-- **C6 counterexample**: the claim's reconstruction inserts one separator
after every FNC1-required non-final Element String.  When a variable-length
value hits its maximum width (20 for AI 10) with no separator in the input,
parsing continues directly with the next AI, so the reconstruction contains
a separator the input never had. -/
theorem c6_counterexample :
    gs1MessageParse "10AAAAAAAAAAAAAAAAAAAA21B".toList none
        defaultSeparatorChars =
      .ok ⟨"10AAAAAAAAAAAAAAAAAAAA21B".toList,
        [⟨⟨"10".toList, "BATCH/LOT".toList, true, [], some (.xclass, 20)⟩,
          "AAAAAAAAAAAAAAAAAAAA".toList, none, none⟩,
         ⟨⟨"21".toList, "SERIAL".toList, true, [], some (.xclass, 20)⟩,
          "B".toList, none, none⟩]⟩ ∧
    reconstructClaim
      [⟨⟨"10".toList, "BATCH/LOT".toList, true, [], some (.xclass, 20)⟩,
        "AAAAAAAAAAAAAAAAAAAA".toList, none, none⟩,
       ⟨⟨"21".toList, "SERIAL".toList, true, [], some (.xclass, 20)⟩,
        "B".toList, none, none⟩] ≠
      "10AAAAAAAAAAAAAAAAAAAA21B".toList :=
  ⟨by decide, by decide⟩

/-- **C6 (amended)**: for every GS1 Message produced by `GS1Message.parse`
with the default separator characters in which every FNC1-required Element
String's value is strictly shorter than its maximum width, concatenating,
for each Element String in order, its AI digits plus its raw value plus one
separator character when its AI is FNC1-required and it is not the last
element, reproduces the whitespace-stripped input exactly.  (No hypothesis
about trailing separators is needed: Python's `strip` removes a trailing GS
character.) -/
theorem c6_reconstruction_amended (value : List Char)
    (region : Option RcnRegion) (m : GS1Message)
    (hok : gs1MessageParse value region defaultSeparatorChars = .ok m)
    (hmax : ∀ es ∈ m.elementStrings, ∀ cls mx,
      es.ai.varSeg = some (cls, mx) → es.value.length < mx) :
    reconstructClaim m.elementStrings = pyStrip value := by
  unfold gs1MessageParse at hok
  dsimp only at hok
  cases hpe : parseElems (pyStrip value) region defaultSeparatorChars
      (pyStrip value) with
  | error e => rw [hpe] at hok; simp [Except.map] at hok
  | ok elems =>
    rw [hpe] at hok
    simp only [Except.map, Except.ok.injEq] at hok
    have hm : m.elementStrings = elems := by rw [← hok]
    rw [hm] at hmax ⊢
    apply parseElems_reconstruct (pyStrip value) region
      (pyStrip value).length (pyStrip value) le_rfl elems hpe ?_ hmax
    intro hlg
    have := pyStrip_getLast_not_space hlg
    have hgs : isPySpace gsChar = true := by decide
    rw [hgs] at this
    exact absurd this (by simp)

/-- Witness for `c6_reconstruction_amended`: the two-element message
`10A<GS>11250516`. -/
theorem c6_reconstruction_amended_witness :
    gs1MessageParse ("10A".toList ++ [gsChar] ++ "11250516".toList) none
        defaultSeparatorChars =
      .ok ⟨"10A".toList ++ [gsChar] ++ "11250516".toList,
        [⟨⟨"10".toList, "BATCH/LOT".toList, true, [], some (.xclass, 20)⟩,
          "A".toList, none, none⟩,
         ⟨⟨"11".toList, "PROD DATE".toList, false, [(.nclass, 6)], none⟩,
          "250516".toList, none, none⟩]⟩ ∧
    reconstructClaim
      [⟨⟨"10".toList, "BATCH/LOT".toList, true, [], some (.xclass, 20)⟩,
        "A".toList, none, none⟩,
       ⟨⟨"11".toList, "PROD DATE".toList, false, [(.nclass, 6)], none⟩,
        "250516".toList, none, none⟩] =
      pyStrip ("10A".toList ++ [gsChar] ++ "11250516".toList) :=
  ⟨by decide,
    c6_reconstruction_amended
      ("10A".toList ++ [gsChar] ++ "11250516".toList) none
      ⟨"10A".toList ++ [gsChar] ++ "11250516".toList,
        [⟨⟨"10".toList, "BATCH/LOT".toList, true, [], some (.xclass, 20)⟩,
          "A".toList, none, none⟩,
         ⟨⟨"11".toList, "PROD DATE".toList, false, [(.nclass, 6)], none⟩,
          "250516".toList, none, none⟩]⟩
      (by decide)
      (by
        intro es hm cls mx hv
        rcases List.mem_cons.mp hm with h | h
        · subst h
          simp only [Option.some.injEq, Prod.mk.injEq] at hv
          show ("A".toList).length < mx
          have h1 : ("A".toList).length = 1 := rfl
          omega
        · rcases List.mem_cons.mp h with h2 | h2
          · subst h2
            simp at hv
          · simp at h2)⟩

/-! ### Re-extraction: the machinery behind the HRI round-trip (C5) -/

/-- Every catalog entry is found by exact lookup of its own AI (the AIs are
pairwise distinct). -/
theorem aiCatalog_lookup_self :
    ∀ e ∈ aiCatalog, lookupAIExact e.ai = some e := by decide

/-- Every catalog AI is 2 or 4 digits long. -/
theorem aiCatalog_ai_len :
    ∀ e ∈ aiCatalog, e.ai.length = 2 ∨ e.ai.length = 4 := by decide

/-- Every catalog AI consists of decimal digits. -/
theorem aiCatalog_ai_digits :
    ∀ e ∈ aiCatalog, ∀ c ∈ e.ai, isDigitChar c = true := by decide

/-- Every fixed-length catalog entry is one all-or-nothing segment of width
at least 4. -/
theorem aiCatalog_fixed_shape :
    ∀ e ∈ aiCatalog, e.varSeg = none →
      e.fixedSegs.length = 1 ∧
      4 ≤ (e.fixedSegs.headD (SegClass.nclass, 0)).2 := by decide

/-- Every variable-length catalog entry has a 2-digit AI and no fixed
segments. -/
theorem aiCatalog_var_shape :
    ∀ e ∈ aiCatalog, e.varSeg.isSome = true →
      e.ai.length = 2 ∧ e.fixedSegs = [] := by decide

/-- No catalog entry has a 3-character AI, so a 3-character lookup fails. -/
theorem lookupAIExact_len3 {s : List Char} (h : s.length = 3) :
    lookupAIExact s = none := by
  cases hl : lookupAIExact s with
  | none => rfl
  | some e =>
    obtain ⟨hm, he⟩ := lookupAIExact_spec hl
    rcases aiCatalog_ai_len e hm with h2 | h4 <;> rw [he, h] at * <;> omega

/-- Catalog AIs are digit strings, so a lookup of a string containing the
GS separator fails. -/
theorem lookupAIExact_gs {s : List Char} (h : gsChar ∈ s) :
    lookupAIExact s = none := by
  cases hl : lookupAIExact s with
  | none => rfl
  | some e =>
    obtain ⟨hm, he⟩ := lookupAIExact_spec hl
    have := aiCatalog_ai_digits e hm gsChar (by rw [he]; exact h)
    exact absurd this (by decide)

/-- `takeWhile` passes over a prefix whose elements all satisfy the
predicate. -/
theorem takeWhile_append_all {p : Char → Bool} :
    ∀ {l₁ : List Char} (l₂ : List Char), (∀ c ∈ l₁, p c = true) →
      (l₁ ++ l₂).takeWhile p = l₁ ++ l₂.takeWhile p := by
  intro l₁
  induction l₁ with
  | nil => intro l₂ h; rfl
  | cons a t ih =>
    intro l₂ h
    rw [List.cons_append, List.takeWhile_cons, if_pos (h a (by simp)),
      ih l₂ (fun c hc => h c (by simp [hc]))]
    rfl

/-- The longest-AI lookup only inspects the first four characters, so any
two continuations of a buffer of length at least 4 agree. -/
theorem findLongestAI_pre4 {pre : List Char} (h : 4 ≤ pre.length)
    (x y : List Char) :
    findLongestAI (pre ++ x) = findLongestAI (pre ++ y) := by
  unfold findLongestAI
  rw [List.take_append_of_le_length (by omega),
    List.take_append_of_le_length (by omega),
    List.take_append_of_le_length (by omega),
    List.take_append_of_le_length (by omega),
    List.take_append_of_le_length (by omega),
    List.take_append_of_le_length (by omega)]

/-- Re-reading a variable-length value in a fresh buffer: a nonempty,
class-valid, separator-free value within the width bound, followed by
nothing or by a separator, reads back exactly. -/
theorem readVarSeg_reread {cls : SegClass} {mx : Nat} {val r' : List Char}
    (hne : val ≠ []) (hcls : val.all (segClassAccepts cls) = true)
    (hlen : val.length ≤ mx)
    (hsepfree : ∀ c ∈ val, defaultSeparatorChars.contains c = false)
    (hctx : r' = [] ∨ r'.head? = some gsChar) :
    readVarSeg cls mx (val ++ r') defaultSeparatorChars = some (val, r') := by
  have htw : (val ++ r').takeWhile (notSep defaultSeparatorChars)
      = val ++ r'.takeWhile (notSep defaultSeparatorChars) := by
    apply takeWhile_append_all
    intro c hc
    simp only [notSep, hsepfree c hc, Bool.not_false]
  have htwr : r'.takeWhile (notSep defaultSeparatorChars) = [] := by
    rcases hctx with h | h
    · rw [h]; rfl
    · cases r' with
      | nil => rfl
      | cons a t =>
        simp only [List.head?_cons, Option.some.injEq] at h
        rw [h, List.takeWhile_cons, if_neg (by decide)]
  unfold readVarSeg
  dsimp only
  rw [htw, htwr, List.append_nil, List.take_of_length_le hlen,
    if_pos ⟨hne, hcls⟩]
  rw [List.drop_left]

/-- Re-reading fixed segments in a fresh buffer: a value read by the fixed
segments reads back exactly, whatever follows it. -/
theorem readFixedSegs_exact :
    ∀ (fs : List (SegClass × Nat)) (buf val r₂ : List Char),
      readFixedSegs fs buf = some (val, r₂) →
      ∀ r' : List Char, readFixedSegs fs (val ++ r') = some (val, r') := by
  intro fs
  induction fs with
  | nil =>
    intro buf val r₂ h r'
    simp only [readFixedSegs, Option.some.injEq, Prod.mk.injEq] at h
    rw [← h.1]
    rfl
  | cons seg rest ih =>
    intro buf val r₂ h r'
    obtain ⟨cls, n⟩ := seg
    simp only [readFixedSegs] at h ⊢
    split at h
    · next hck =>
      cases hrec : readFixedSegs rest (buf.drop n) with
      | none => rw [hrec] at h; simp at h
      | some p =>
        obtain ⟨v2, r2⟩ := p
        rw [hrec] at h
        simp only [Option.some.injEq, Prod.mk.injEq] at h
        obtain ⟨hv, hr⟩ := h
        have hchunk := hck.1
        have ihh := ih (buf.drop n) v2 r2 hrec r'
        rw [← hv]
        have htk : ((buf.take n ++ v2) ++ r').take n = buf.take n := by
          rw [List.append_assoc,
            List.take_append_of_le_length (by rw [hchunk]),
            List.take_of_length_le (by rw [hchunk])]
        have hdk : ((buf.take n ++ v2) ++ r').drop n = v2 ++ r' := by
          rw [List.append_assoc]
          nth_rewrite 1 [show n = (buf.take n).length from hchunk.symm]
          exact List.drop_left _ _
        rw [htk, hdk, if_pos ⟨hchunk, hck.2⟩, ihh]
    · simp at h

/-- The element-level well-formedness that survives a message round-trip:
the AI is a catalog entry, the value is nonempty, the domain decode is
recorded, and in any buffer that continues with nothing, a separator, or —
for fixed-length AIs — anything at all, the element extracts back
exactly. -/
def ESReparse (region : Option RcnRegion) (es : GS1ElementString) : Prop :=
  es.ai ∈ aiCatalog ∧
  es.value ≠ [] ∧
  decodeDomain es.ai es.value region = .ok (es.gtin, es.sscc) ∧
  ∀ r' : List Char,
    (r' = [] ∨ r'.head? = some gsChar ∨ es.ai.varSeg = none) →
    findLongestAI (es.ai.ai ++ (es.value ++ r')) = some es.ai ∧
    readSegs es.ai (es.value ++ r') defaultSeparatorChars =
      some (es.value, r')

/-- A successful extraction under the default separators yields a
well-formed element in the sense of `ESReparse`. -/
theorem gs1ExtractElement_reparse {r : List Char} {region : Option RcnRegion}
    {es : GS1ElementString}
    (h : gs1ExtractElement r region defaultSeparatorChars = .ok es) :
    ESReparse region es := by
  obtain ⟨hf, hs, hdd⟩ := gs1ExtractElement_ok_spec h
  have hmem := gs1ExtractElement_ai_mem h
  have hdec := gs1ExtractElement_decompose h
  have htrans : 4 ≤ (es.ai.ai ++ es.value).length →
      ∀ r' : List Char,
        findLongestAI (es.ai.ai ++ (es.value ++ r')) = some es.ai := by
    intro h4 r'
    rw [← List.append_assoc,
      findLongestAI_pre4 h4 r' (r.drop (esLen es)), ← hdec]
    exact hf
  cases hvcase : es.ai.varSeg with
  | some sv =>
    obtain ⟨cls, mx⟩ := sv
    have hshape := aiCatalog_var_shape es.ai hmem (by rw [hvcase]; rfl)
    unfold readSegs at hs
    rw [hshape.2] at hs
    simp only [readFixedSegs] at hs
    rw [hvcase] at hs
    dsimp only at hs
    cases hvr : readVarSeg cls mx (r.drop es.ai.ai.length)
        defaultSeparatorChars with
    | none => rw [hvr] at hs; simp at hs
    | some p2 =>
      obtain ⟨v2, r2⟩ := p2
      rw [hvr] at hs
      dsimp only at hs
      simp only [Option.some.injEq, Prod.mk.injEq, List.nil_append] at hs
      obtain ⟨hval, hrest⟩ := hs
      obtain ⟨-, hlemx, hvne, hvcls, hvfree, -⟩ := readVarSeg_spec hvr
      rw [hval] at hlemx hvne hvcls hvfree
      refine ⟨hmem, hvne, hdd, ?_⟩
      intro r' hctx
      have hctx' : r' = [] ∨ r'.head? = some gsChar := by
        rcases hctx with h1 | h1 | h1
        · exact Or.inl h1
        · exact Or.inr h1
        · rw [hvcase] at h1; cases h1
      constructor
      · by_cases hv2 : 2 ≤ es.value.length
        · exact htrans (by rw [List.length_append, hshape.1]; omega) r'
        · have hv1 : es.value.length = 1 := by
            have hpos : 0 < es.value.length := List.length_pos.mpr hvne
            omega
          obtain ⟨v, hv⟩ := List.length_eq_one.mp hv1
          have hab : ∃ a b, es.ai.ai = [a, b] := by
            have h2 := hshape.1
            cases hl : es.ai.ai with
            | nil => rw [hl] at h2; simp only [List.length_nil] at h2; omega
            | cons a t =>
              rw [hl] at h2
              cases t with
              | nil => simp only [List.length_cons, List.length_nil] at h2; omega
              | cons b t2 =>
                cases t2 with
                | nil => exact ⟨a, b, rfl⟩
                | cons x t3 => simp only [List.length_cons] at h2; omega
          obtain ⟨a, b, hab⟩ := hab
          rcases hctx' with hr' | hr'
          · subst hr'
            rw [hab, hv]
            simp only [List.append_nil, List.cons_append, List.nil_append]
            unfold findLongestAI
            rw [show List.take 4 [a, b, v] = [a, b, v] from rfl,
              lookupAIExact_len3 (s := [a, b, v]) rfl]
            dsimp only
            rw [show List.take 3 [a, b, v] = [a, b, v] from rfl,
              lookupAIExact_len3 (s := [a, b, v]) rfl]
            dsimp only
            rw [show List.take 2 [a, b, v] = [a, b] from rfl, ← hab]
            exact aiCatalog_lookup_self es.ai hmem
          · cases hr'' : r' with
            | nil => rw [hr''] at hr'; simp at hr'
            | cons c t =>
              rw [hr''] at hr'
              simp only [List.head?_cons, Option.some.injEq] at hr'
              subst hr'
              rw [hab, hv]
              simp only [List.cons_append, List.nil_append]
              unfold findLongestAI
              rw [show List.take 4 (a :: b :: v :: gsChar :: t)
                  = [a, b, v, gsChar] from rfl,
                lookupAIExact_gs (s := [a, b, v, gsChar]) (by simp)]
              dsimp only
              rw [show List.take 3 (a :: b :: v :: gsChar :: t)
                  = [a, b, v] from rfl,
                lookupAIExact_len3 (s := [a, b, v]) rfl]
              dsimp only
              rw [show List.take 2 (a :: b :: v :: gsChar :: t)
                  = [a, b] from rfl, ← hab]
              exact aiCatalog_lookup_self es.ai hmem
      · unfold readSegs
        rw [hshape.2]
        simp only [readFixedSegs]
        rw [hvcase]
        dsimp only
        rw [readVarSeg_reread hvne hvcls hlemx hvfree hctx']
        rfl
  | none =>
    have hshape := aiCatalog_fixed_shape es.ai hmem hvcase
    obtain ⟨seg, hseg⟩ := List.length_eq_one.mp hshape.1
    obtain ⟨cls, n⟩ := seg
    have hn : 4 ≤ n := by
      have := hshape.2
      rw [hseg] at this
      exact this
    unfold readSegs at hs
    rw [hseg] at hs
    cases hfx : readFixedSegs [(cls, n)] (r.drop es.ai.ai.length) with
    | none => rw [hfx] at hs; simp at hs
    | some p =>
      obtain ⟨v1, r1⟩ := p
      rw [hfx] at hs
      dsimp only at hs
      rw [hvcase] at hs
      dsimp only at hs
      simp only [Option.some.injEq, Prod.mk.injEq] at hs
      obtain ⟨hval, hrest⟩ := hs
      have hvlen : v1.length = n := by
        simp only [readFixedSegs] at hfx
        split at hfx
        · next hck =>
          simp only [Option.some.injEq, Prod.mk.injEq] at hfx
          rw [← hfx.1, List.append_nil]
          exact hck.1
        · simp at hfx
      refine ⟨hmem, ?_, hdd, ?_⟩
      · rw [← hval]
        intro hnil
        rw [hnil] at hvlen
        simp at hvlen
        omega
      · intro r' hctx
        constructor
        · apply htrans
          rw [List.length_append, ← hval, hvlen]
          omega
        · unfold readSegs
          rw [hseg, ← hval]
          rw [readFixedSegs_exact [(cls, n)] (r.drop es.ai.ai.length) v1 r1
            hfx r']
          dsimp only
          rw [hvcase]

/-- Converse of `gs1ExtractElement_ok_spec`: assembling an extraction from
its three successful stages. -/
theorem gs1ExtractElement_build {r : List Char} {region : Option RcnRegion}
    {e : GS1ApplicationIdentifier} {val r₂ : List Char} {g : Option Gtin}
    {s : Option Sscc}
    (hf : findLongestAI r = some e)
    (hr : readSegs e (r.drop e.ai.length) defaultSeparatorChars
      = some (val, r₂))
    (hd : decodeDomain e val region = .ok (g, s)) :
    gs1ExtractElement r region defaultSeparatorChars = .ok ⟨e, val, g, s⟩ := by
  unfold gs1ExtractElement
  rw [hf]
  dsimp only
  rw [hr]
  dsimp only
  rw [hd]
  rfl

/-- One unfolding of the loop on any nonempty buffer. -/
theorem parseElems_unfold (orig : List Char) (region : Option RcnRegion)
    (seps : List Char) (r : List Char) (hr : r ≠ []) :
    parseElems orig region seps r =
      match gs1ExtractElement r region seps with
      | .error e => .error e
      | .ok es =>
        match r.drop (esLen es) with
        | [] => .ok [es]
        | c :: tail =>
          if seps.contains c then
            if es.ai.fnc1Required then
              (parseElems orig region seps tail).map (es :: ·)
            else
              .error (.parseError (fixedSepMsg es c orig))
          else
            (parseElems orig region seps (c :: tail)).map (es :: ·) := by
  obtain ⟨c, t, hct⟩ := List.exists_cons_of_ne_nil hr
  subst hct
  exact parseElems_cons orig region seps c t

/-- Every Element String produced by the loop under the default separators
is well formed. -/
theorem parseElems_all_reparse (orig : List Char) (region : Option RcnRegion) :
    ∀ (n : Nat) (rest : List Char), rest.length ≤ n →
      ∀ elems : List GS1ElementString,
      parseElems orig region defaultSeparatorChars rest = .ok elems →
      ∀ es ∈ elems, ESReparse region es := by
  intro n
  induction n with
  | zero =>
    intro rest hlen elems hok es hm
    have hr : rest = [] := List.eq_nil_of_length_eq_zero (Nat.le_zero.mp hlen)
    subst hr
    have he : (Except.ok [] : Except BiipError (List GS1ElementString))
        = .ok elems := hok
    cases he
    simp at hm
  | succ n ih =>
    intro rest hlen elems hok es hm
    cases rest with
    | nil =>
      have he : (Except.ok [] : Except BiipError (List GS1ElementString))
          = .ok elems := hok
      cases he
      simp at hm
    | cons r₀ rrest =>
      rw [parseElems_cons] at hok
      cases hx : gs1ExtractElement (r₀ :: rrest) region
          defaultSeparatorChars with
      | error e => rw [hx] at hok; simp at hok
      | ok es₁ =>
        rw [hx] at hok
        dsimp only at hok
        have hpos := gs1ExtractElement_esLen_pos hx
        have hlendrop : ((r₀ :: rrest).drop (esLen es₁)).length
            = (r₀ :: rrest).length - esLen es₁ := List.length_drop _ _
        cases hd : (r₀ :: rrest).drop (esLen es₁) with
        | nil =>
          rw [hd] at hok
          dsimp only at hok
          cases hok
          have he : es = es₁ := by simpa using hm
          rw [he]
          exact gs1ExtractElement_reparse hx
        | cons c tail =>
          rw [hd] at hok
          dsimp only at hok
          rw [hd] at hlendrop
          simp only [List.length_cons] at hlendrop hlen
          split at hok
          · split at hok
            · cases hpt : parseElems orig region defaultSeparatorChars
                  tail with
              | error e => rw [hpt] at hok; simp [Except.map] at hok
              | ok elems' =>
                rw [hpt] at hok
                simp only [Except.map, Except.ok.injEq] at hok
                subst hok
                rcases List.mem_cons.mp hm with h | h
                · rw [h]; exact gs1ExtractElement_reparse hx
                · exact ih tail (by omega) elems' hpt es h
            · simp at hok
          · cases hpt : parseElems orig region defaultSeparatorChars
                (c :: tail) with
            | error e => rw [hpt] at hok; simp [Except.map] at hok
            | ok elems' =>
              rw [hpt] at hok
              simp only [Except.map, Except.ok.injEq] at hok
              subst hok
              rcases List.mem_cons.mp hm with h | h
              · rw [h]; exact gs1ExtractElement_reparse hx
              · exact ih (c :: tail)
                  (by simp only [List.length_cons]; omega) elems' hpt es h

/-- A decimal digit is not a separator character. -/
theorem digit_notin_seps {c : Char} (h : isDigitChar c = true) :
    defaultSeparatorChars.contains c = false := by
  have hne : c ≠ gsChar := by
    intro he
    rw [he] at h
    exact absurd h (by decide)
  simp [defaultSeparatorChars, hne]

/-- A word character (letter, digit, underscore) is not Python
whitespace. -/
theorem isWordChar_not_pySpace {c : Char} (h : isWordChar c = true) :
    isPySpace c = false := by
  unfold isWordChar at h
  unfold isPySpace
  simp only [Bool.or_eq_true, Bool.and_eq_true, decide_eq_true_eq] at h
  simp only [Bool.or_eq_false_iff, Bool.and_eq_false_iff,
    decide_eq_false_iff_not]
  omega

/-- The reconstruction of a nonempty list starts with the first AI's
digits. -/
theorem reconstructClaim_cons (e2 : GS1ElementString)
    (rest2 : List GS1ElementString) :
    ∃ w : List Char, reconstructClaim (e2 :: rest2) = e2.ai.ai ++ w := by
  cases rest2 with
  | nil => exact ⟨e2.value, rfl⟩
  | cons e3 r3 =>
    refine ⟨e2.value ++ (if e2.ai.fnc1Required then [gsChar] else []) ++
      reconstructClaim (e3 :: r3), ?_⟩
    show e2.ai.ai ++ e2.value ++ _ ++ _ = _
    simp [List.append_assoc]

/-- The reconstruction equation on a list of two or more elements. -/
theorem reconstructClaim_cons2 (es e2 : GS1ElementString)
    (rest2 : List GS1ElementString) :
    reconstructClaim (es :: e2 :: rest2) =
      es.ai.ai ++ es.value ++ (if es.ai.fnc1Required then [gsChar] else []) ++
        reconstructClaim (e2 :: rest2) := rfl

/-- A list of well-formed elements parses back exactly from its claimed
reconstruction. -/
theorem parseElems_of_reparse (orig : List Char) (region : Option RcnRegion) :
    ∀ elems : List GS1ElementString,
      (∀ es ∈ elems, ESReparse region es) →
      parseElems orig region defaultSeparatorChars (reconstructClaim elems)
        = .ok elems := by
  intro elems
  induction elems with
  | nil => intro h; rfl
  | cons es rest ih =>
    intro hall
    obtain ⟨hmem, hvne, hdd, hre⟩ := hall es (by simp)
    have hane : es.ai.ai ≠ [] := aiCatalog_ai_ne_nil es.ai hmem
    cases rest with
    | nil =>
      obtain ⟨hfind, hread⟩ := hre [] (Or.inl rfl)
      rw [List.append_nil] at hfind hread
      show parseElems orig region defaultSeparatorChars
        (es.ai.ai ++ es.value) = .ok [es]
      have hx : gs1ExtractElement (es.ai.ai ++ es.value) region
          defaultSeparatorChars = Except.ok es := by
        have hdrop : (es.ai.ai ++ es.value).drop es.ai.ai.length
            = es.value := List.drop_left _ _
        exact gs1ExtractElement_build hfind (by rw [hdrop]; exact hread) hdd
      rw [parseElems_unfold orig region defaultSeparatorChars _
        (by intro h0; rw [List.append_eq_nil] at h0; exact hane h0.1)]
      rw [hx]
      dsimp only
      have hdrop2 : (es.ai.ai ++ es.value).drop (esLen es) = [] := by
        apply List.drop_eq_nil_of_le
        show (es.ai.ai ++ es.value).length ≤ es.ai.ai.length + es.value.length
        rw [List.length_append]
      rw [hdrop2]
    | cons e2 rest2 =>
      have hall2 : ∀ x ∈ e2 :: rest2, ESReparse region x :=
        fun x hx => hall x (List.mem_cons_of_mem es hx)
      have ihre := ih hall2
      have he2 := hall2 e2 (by simp)
      have he2ne : e2.ai.ai ≠ [] := aiCatalog_ai_ne_nil e2.ai he2.1
      obtain ⟨b, u, hbu⟩ := List.exists_cons_of_ne_nil he2ne
      obtain ⟨w, hw⟩ := reconstructClaim_cons e2 rest2
      cases hfc : es.ai.fnc1Required with
      | true =>
        obtain ⟨hfind, hread⟩ :=
          hre (gsChar :: reconstructClaim (e2 :: rest2)) (Or.inr (Or.inl rfl))
        rw [reconstructClaim_cons2, hfc, if_pos rfl]
        have hBeq : es.ai.ai ++ es.value ++ [gsChar] ++
            reconstructClaim (e2 :: rest2)
            = es.ai.ai ++ (es.value ++ gsChar ::
                reconstructClaim (e2 :: rest2)) := by
          simp [List.append_assoc]
        rw [hBeq]
        rw [parseElems_unfold orig region defaultSeparatorChars _
          (by intro h0; rw [List.append_eq_nil] at h0; exact hane h0.1)]
        have hx : gs1ExtractElement
            (es.ai.ai ++ (es.value ++ gsChar ::
              reconstructClaim (e2 :: rest2))) region defaultSeparatorChars
            = Except.ok es :=
          gs1ExtractElement_build hfind
            (by rw [List.drop_left]; exact hread) hdd
        rw [hx]
        dsimp only
        have hdropB : (es.ai.ai ++ (es.value ++ gsChar ::
            reconstructClaim (e2 :: rest2))).drop (esLen es)
            = gsChar :: reconstructClaim (e2 :: rest2) := by
          rw [← List.append_assoc]
          show ((es.ai.ai ++ es.value) ++ _).drop
            (es.ai.ai.length + es.value.length) = _
          rw [show es.ai.ai.length + es.value.length
            = (es.ai.ai ++ es.value).length from
              (List.length_append _ _).symm]
          exact List.drop_left _ _
        rw [hdropB]
        dsimp only
        rw [if_pos (show defaultSeparatorChars.contains gsChar = true
          from by decide), hfc, if_pos rfl, ihre]
        rfl
      | false =>
        have hvnone : es.ai.varSeg = none := by
          cases hv : es.ai.varSeg with
          | none => rfl
          | some sv =>
            have h2 := (aiCatalog_shape es.ai hmem).2
            rw [hfc, hv] at h2
            simp at h2
        obtain ⟨hfind, hread⟩ :=
          hre (reconstructClaim (e2 :: rest2)) (Or.inr (Or.inr hvnone))
        rw [reconstructClaim_cons2, hfc, if_neg (by simp), List.append_nil,
          List.append_assoc]
        rw [parseElems_unfold orig region defaultSeparatorChars _
          (by intro h0; rw [List.append_eq_nil] at h0; exact hane h0.1)]
        have hx : gs1ExtractElement
            (es.ai.ai ++ (es.value ++ reconstructClaim (e2 :: rest2)))
            region defaultSeparatorChars = Except.ok es :=
          gs1ExtractElement_build hfind
            (by rw [List.drop_left]; exact hread) hdd
        rw [hx]
        dsimp only
        have hdropB : (es.ai.ai ++ (es.value ++
            reconstructClaim (e2 :: rest2))).drop (esLen es)
            = reconstructClaim (e2 :: rest2) := by
          rw [← List.append_assoc]
          show ((es.ai.ai ++ es.value) ++ _).drop
            (es.ai.ai.length + es.value.length) = _
          rw [show es.ai.ai.length + es.value.length
            = (es.ai.ai ++ es.value).length from
              (List.length_append _ _).symm]
          exact List.drop_left _ _
        rw [hdropB]
        have hRcons : reconstructClaim (e2 :: rest2) = b :: (u ++ w) := by
          rw [hw, hbu, List.cons_append]
        rw [hRcons]
        dsimp only
        have hbdig : isDigitChar b = true :=
          aiCatalog_ai_digits e2.ai he2.1 b (by rw [hbu]; simp)
        rw [digit_notin_seps hbdig, if_neg (by simp), ← hRcons, ihre]
        rfl

/-- Binding a successful `Except` computation applies the continuation. -/
theorem except_bind_ok {α β : Type} (a : α) (f : α → Except BiipError β) :
    (Except.ok a >>= f) = f a := rfl

/-- An element delivered by `getLast?` is a member of the list. -/
theorem getLast?_mem_of {α : Type} :
    ∀ {l : List α} {a : α}, l.getLast? = some a → a ∈ l := by
  intro l
  induction l with
  | nil => intro a h; cases h
  | cons x t ih =>
    intro a h
    cases t with
    | nil =>
      have hx : x = a := by simpa using h
      rw [hx]
      simp
    | cons y u =>
      rw [List.getLast?_cons_cons] at h
      exact List.mem_cons_of_mem x (ih h)

/-- Looking up the scanned pairs of a catalog-backed element list succeeds
with the catalog entries themselves. -/
theorem mapM_hriLookup (v : List Char) :
    ∀ elems : List GS1ElementString, (∀ es ∈ elems, es.ai ∈ aiCatalog) →
      (elems.map (fun es => (es.ai.ai, es.value))).mapM (hriLookupEntry v)
        = Except.ok (elems.map (fun es => (es.ai, es.value))) := by
  intro elems
  induction elems with
  | nil => intro h; rfl
  | cons e t ih =>
    intro h
    rw [List.map_cons, List.mapM_cons]
    have h1 : hriLookupEntry v (e.ai.ai, e.value)
        = Except.ok (e.ai, e.value) := by
      unfold hriLookupEntry
      dsimp only
      rw [aiCatalog_lookup_self e.ai (h e (by simp))]
    rw [h1, ih (fun x hx => h x (by simp [hx]))]
    rfl

/-- The regex matcher at an `(AI)DATA` group boundary: digits for the AI,
word characters for the data, stopping at the next group or the end. -/
theorem hriTryMatch_elem {ai val F : List Char}
    (hane : ai ≠ []) (hadig : ∀ c ∈ ai, isDigitChar c = true)
    (hvne : val ≠ []) (hvword : ∀ c ∈ val, isWordChar c = true)
    (hF : F.takeWhile isWordChar = []) :
    hriTryMatch ('(' :: (ai ++ ')' :: (val ++ F))) = some (ai, val) := by
  unfold hriTryMatch
  dsimp only
  rw [if_pos rfl]
  rw [takeWhile_append_all (')' :: (val ++ F)) hadig, List.takeWhile_cons,
    if_neg (show ¬(isDigitChar ')' = true) from by decide), List.append_nil]
  have hie : ai.isEmpty = false := by
    cases ai with
    | nil => exact absurd rfl hane
    | cons _ _ => rfl
  rw [hie, if_neg (show ¬(false = true) from by simp), List.drop_left]
  dsimp only
  rw [if_pos rfl, takeWhile_append_all F hvword, hF, List.append_nil]
  have hve : val.isEmpty = false := by
    cases val with
    | nil => exact absurd rfl hvne
    | cons _ _ => rfl
  rw [hve, if_neg (show ¬(false = true) from by simp)]

/-- The scan of a rendered element list returns exactly its `(AI, value)`
pairs. -/
theorem hriFindAll_flatten :
    ∀ elems : List GS1ElementString,
      (∀ es ∈ elems, es.ai ∈ aiCatalog ∧ es.value ≠ [] ∧
        ∀ c ∈ es.value, isWordChar c = true) →
      hriFindAll ((elems.map esAsHri).flatten)
        = elems.map (fun es => (es.ai.ai, es.value)) := by
  intro elems
  induction elems with
  | nil => intro h; rfl
  | cons es rest ih =>
    intro h
    obtain ⟨hmem, hvne, hvword⟩ := h es (by simp)
    have hane : es.ai.ai ≠ [] := aiCatalog_ai_ne_nil es.ai hmem
    have hadig : ∀ c ∈ es.ai.ai, isDigitChar c = true :=
      aiCatalog_ai_digits es.ai hmem
    rw [List.map_cons, List.flatten_cons]
    have hbuf : esAsHri es ++ (rest.map esAsHri).flatten
        = '(' :: (es.ai.ai ++ ')' ::
            (es.value ++ (rest.map esAsHri).flatten)) := by
      show ('(' :: es.ai.ai ++ ')' :: es.value) ++ _ = _
      simp [List.cons_append, List.append_assoc]
    have hFtw : ((rest.map esAsHri).flatten).takeWhile isWordChar = [] := by
      cases rest with
      | nil => rfl
      | cons e2 r2 =>
        rw [List.map_cons, List.flatten_cons]
        rw [show esAsHri e2 ++ (r2.map esAsHri).flatten
            = '(' :: (e2.ai.ai ++ (')' :: e2.value) ++
                (r2.map esAsHri).flatten) from by
          show ('(' :: e2.ai.ai ++ ')' :: e2.value) ++ _ = _
          simp [List.cons_append, List.append_assoc]]
        rw [List.takeWhile_cons, if_neg (by decide)]
    rw [hbuf, hriFindAll_cons, hriTryMatch_elem hane hadig hvne hvword hFtw]
    dsimp only
    have hdropF : ('(' :: (es.ai.ai ++ ')' ::
        (es.value ++ (rest.map esAsHri).flatten))).drop
        (2 + es.ai.ai.length + es.value.length)
        = (rest.map esAsHri).flatten := by
      rw [show '(' :: (es.ai.ai ++ ')' ::
          (es.value ++ (rest.map esAsHri).flatten))
          = (('(' :: es.ai.ai) ++ (')' :: es.value)) ++
              (rest.map esAsHri).flatten from by
        simp [List.cons_append, List.append_assoc]]
      rw [show 2 + es.ai.ai.length + es.value.length
          = (('(' :: es.ai.ai) ++ (')' :: es.value)).length from by
        simp only [List.length_append, List.length_cons]
        omega]
      exact List.drop_left _ _
    rw [hdropF, ih (fun x hx => h x (by simp [hx]))]
    rfl

/-- The reassembled machine form is the claim's reconstruction plus a
trailing separator when the last AI is FNC1-required. -/
theorem flatten_nf_eq :
    ∀ elems : List GS1ElementString,
      (elems.map (fun es => es.ai.ai ++ es.value ++
        (if es.ai.fnc1Required then [gsChar] else []))).flatten
      = reconstructClaim elems ++
        (match elems.getLast? with
         | some es => if es.ai.fnc1Required then [gsChar] else []
         | none => []) := by
  intro elems
  induction elems with
  | nil => rfl
  | cons es rest ih =>
    cases rest with
    | nil =>
      simp only [List.map_cons, List.map_nil, List.flatten_cons,
        List.flatten_nil, List.append_nil]
      rfl
    | cons e2 r2 =>
      rw [List.map_cons, List.flatten_cons, ih, reconstructClaim_cons2,
        show (es :: e2 :: r2).getLast? = (e2 :: r2).getLast? from
          List.getLast?_cons_cons]
      simp [List.append_assoc]

/-- `pyStrip` is the identity when the first and last characters are not
Python whitespace. -/
theorem pyStrip_eq_self_of_ends {a : Char} {t : List Char}
    (hh : isPySpace a = false)
    (hl : ∀ c, (a :: t).getLast? = some c → isPySpace c = false) :
    pyStrip (a :: t) = a :: t := by
  unfold pyStrip
  rw [List.dropWhile_cons, if_neg (by rw [hh]; simp)]
  cases hr : (a :: t).reverse with
  | nil => exact absurd hr (by simp)
  | cons b u =>
    have hb : (a :: t).getLast? = some b := by
      rw [← List.head?_reverse, hr]
      rfl
    rw [List.dropWhile_cons, if_neg (by rw [hl b hb]; simp), ← hr,
      List.reverse_reverse]

/-- `pyStrip` removes exactly a trailing separator from a string whose own
first and last characters are not Python whitespace. -/
theorem pyStrip_append_gs {a : Char} {t : List Char}
    (hh : isPySpace a = false)
    (hl : ∀ c, (a :: t).getLast? = some c → isPySpace c = false) :
    pyStrip ((a :: t) ++ [gsChar]) = a :: t := by
  unfold pyStrip
  rw [List.cons_append, List.dropWhile_cons, if_neg (by rw [hh]; simp)]
  rw [show (a :: (t ++ [gsChar])).reverse = gsChar :: (a :: t).reverse from by
    rw [← List.cons_append, List.reverse_append]
    rfl]
  rw [List.dropWhile_cons, if_pos (by decide)]
  cases hr : (a :: t).reverse with
  | nil => exact absurd hr (by simp)
  | cons b u =>
    have hb : (a :: t).getLast? = some b := by
      rw [← List.head?_reverse, hr]
      rfl
    rw [List.dropWhile_cons, if_neg (by rw [hl b hb]; simp), ← hr,
      List.reverse_reverse]

/-- The reconstruction of a list of elements with nonempty AIs ends with
the last element's value. -/
theorem reconstructClaim_getLast :
    ∀ (elems : List GS1ElementString) (eL : GS1ElementString),
      (∀ x ∈ elems, x.ai.ai ≠ []) →
      elems.getLast? = some eL → eL.value ≠ [] →
      (reconstructClaim elems).getLast? = eL.value.getLast? := by
  intro elems
  induction elems with
  | nil => intro eL hai h; cases h
  | cons es rest ih =>
    intro eL hai h hvne
    cases rest with
    | nil =>
      have he : es = eL := by simpa using h
      subst he
      show (es.ai.ai ++ es.value).getLast? = es.value.getLast?
      exact getLast?_suffix hvne
    | cons e2 r2 =>
      rw [List.getLast?_cons_cons] at h
      obtain ⟨w, hw⟩ := reconstructClaim_cons e2 r2
      have hrcne : reconstructClaim (e2 :: r2) ≠ [] := by
        rw [hw]
        intro h0
        rw [List.append_eq_nil] at h0
        exact hai e2 (by simp) h0.1
      rw [reconstructClaim_cons2, getLast?_suffix hrcne]
      exact ih eL (fun x hx => hai x (List.mem_cons_of_mem es hx)) h hvne

/-- `getLast?` of a nonempty list is `some`. -/
theorem getLast?_cons_ex {α : Type} (a : α) :
    ∀ t : List α, ∃ x, (a :: t).getLast? = some x := by
  intro t
  induction t generalizing a with
  | nil => exact ⟨a, rfl⟩
  | cons b u ih =>
    obtain ⟨x, hx⟩ := ih b
    exact ⟨x, by rw [List.getLast?_cons_cons]; exact hx⟩

/-- **C5 counterexample**: the HRI round-trip loses data that the machine
format carries.  `10A-B` parses as one Element String with value `A-B`
(the hyphen is in the GS1 invariant set), its HRI is `(10)A-B`, but
`parse_hri`'s regex `\((\d+)\)(\w+)` stops the data group at the hyphen, so
re-parsing returns value `A`: the round-trip yields a different message. -/
theorem c5_counterexample :
    gs1MessageParse "10A-B".toList none defaultSeparatorChars =
      .ok ⟨"10A-B".toList,
        [⟨⟨"10".toList, "BATCH/LOT".toList, true, [], some (.xclass, 20)⟩,
          "A-B".toList, none, none⟩]⟩ ∧
    gs1MessageParseHri
      (msgAsHri ⟨"10A-B".toList,
        [⟨⟨"10".toList, "BATCH/LOT".toList, true, [], some (.xclass, 20)⟩,
          "A-B".toList, none, none⟩]⟩) none =
      .ok ⟨"10A".toList,
        [⟨⟨"10".toList, "BATCH/LOT".toList, true, [], some (.xclass, 20)⟩,
          "A".toList, none, none⟩]⟩ :=
  ⟨by decide, by decide⟩

/-- **C5 (amended)**: the HRI round-trip is exact on messages with at least
one Element String all of whose values consist of regex word characters
(letters, digits, underscore): for every such message produced by
`GS1Message.parse` with the default separator characters,
`GS1Message.parse_hri` applied to its `as_hri()` rendering succeeds and
returns a message with exactly the same Element Strings (hence the same AI
sequence and decoded fields), whose raw value is the canonical machine
form (AI digits, value, and one separator after each non-final
FNC1-required element). -/
theorem c5_hri_roundtrip_amended (value : List Char)
    (region : Option RcnRegion) (m : GS1Message)
    (hok : gs1MessageParse value region defaultSeparatorChars = .ok m)
    (hne : m.elementStrings ≠ [])
    (hword : ∀ es ∈ m.elementStrings, ∀ c ∈ es.value, isWordChar c = true) :
    gs1MessageParseHri (msgAsHri m) region =
      .ok ⟨reconstructClaim m.elementStrings, m.elementStrings⟩ := by
  unfold gs1MessageParse at hok
  dsimp only at hok
  cases hpe : parseElems (pyStrip value) region defaultSeparatorChars
      (pyStrip value) with
  | error e => rw [hpe] at hok; simp [Except.map] at hok
  | ok elems =>
    rw [hpe] at hok
    simp only [Except.map, Except.ok.injEq] at hok
    have hm2 : m = ⟨pyStrip value, elems⟩ := hok.symm
    subst hm2
    have hall : ∀ es ∈ elems, ESReparse region es :=
      parseElems_all_reparse (pyStrip value) region (pyStrip value).length
        (pyStrip value) le_rfl elems hpe
    have hne' : elems ≠ [] := hne
    have hword' : ∀ es ∈ elems, ∀ c ∈ es.value, isWordChar c = true := hword
    obtain ⟨e1, erest, he1⟩ := List.exists_cons_of_ne_nil hne'
    subst he1
    show gs1MessageParseHri (((e1 :: erest).map esAsHri).flatten) region =
      .ok ⟨reconstructClaim (e1 :: erest), e1 :: erest⟩
    have hchars : ∀ c ∈ ((e1 :: erest).map esAsHri).flatten,
        isPySpace c = false := by
      intro c hc
      obtain ⟨s, hs, hcs⟩ := List.mem_flatten.mp hc
      obtain ⟨es, hes, heq⟩ := List.mem_map.mp hs
      rw [← heq] at hcs
      unfold esAsHri at hcs
      rcases List.mem_append.mp hcs with h1 | h1
      · rcases List.mem_cons.mp h1 with h2 | h2
        · rw [h2]; decide
        · exact isPySpace_eq_false_of_digit
            (aiCatalog_ai_digits es.ai (hall es hes).1 c h2)
      · rcases List.mem_cons.mp h1 with h2 | h2
        · rw [h2]; decide
        · exact isWordChar_not_pySpace (hword' es hes c h2)
    have hstrip1 : pyStrip (((e1 :: erest).map esAsHri).flatten)
        = ((e1 :: erest).map esAsHri).flatten := pyStrip_eq_self hchars
    unfold gs1MessageParseHri
    dsimp only
    rw [hstrip1]
    have hhead : (((e1 :: erest).map esAsHri).flatten).head? = some '(' := rfl
    rw [if_neg (by rw [hhead]; simp)]
    have hfound : hriFindAll (((e1 :: erest).map esAsHri).flatten)
        = (e1 :: erest).map (fun es => (es.ai.ai, es.value)) :=
      hriFindAll_flatten (e1 :: erest) (fun es hes =>
        ⟨(hall es hes).1, (hall es hes).2.1, hword' es hes⟩)
    rw [hfound,
      show ((e1 :: erest).map
        (fun es => (es.ai.ai, es.value))).isEmpty = false from rfl,
      if_neg (show ¬(false = true) from by simp)]
    rw [mapM_hriLookup _ (e1 :: erest) (fun es hes => (hall es hes).1),
      except_bind_ok]
    rw [show (((e1 :: erest).map (fun es => (es.ai, es.value))).map (fun q =>
        q.1.ai ++ q.2 ++ (if q.1.fnc1Required then [gsChar] else []))).flatten
      = ((e1 :: erest).map (fun es => es.ai.ai ++ es.value ++
          (if es.ai.fnc1Required then [gsChar] else []))).flatten from by
      rw [List.map_map]
      rfl]
    rw [flatten_nf_eq (e1 :: erest)]
    obtain ⟨eL, heL⟩ := getLast?_cons_ex e1 erest
    have heLmem : eL ∈ e1 :: erest := getLast?_mem_of heL
    have heLval : eL.value ≠ [] := (hall eL heLmem).2.1
    obtain ⟨b1, u1, hb1u⟩ := List.exists_cons_of_ne_nil
      (aiCatalog_ai_ne_nil e1.ai (hall e1 (by simp)).1)
    obtain ⟨w, hw⟩ := reconstructClaim_cons e1 erest
    have hRc : reconstructClaim (e1 :: erest) = b1 :: (u1 ++ w) := by
      rw [hw, hb1u, List.cons_append]
    have hb1dig : isDigitChar b1 = true :=
      aiCatalog_ai_digits e1.ai (hall e1 (by simp)).1 b1 (by rw [hb1u]; simp)
    have hb1sp : isPySpace b1 = false := isPySpace_eq_false_of_digit hb1dig
    have hgl_eq : (reconstructClaim (e1 :: erest)).getLast?
        = eL.value.getLast? :=
      reconstructClaim_getLast (e1 :: erest) eL
        (fun x hx => aiCatalog_ai_ne_nil x.ai (hall x hx).1) heL heLval
    have hlastc : ∀ c, (b1 :: (u1 ++ w)).getLast? = some c →
        isPySpace c = false := by
      intro c hc
      rw [← hRc, hgl_eq] at hc
      exact isWordChar_not_pySpace
        (hword' eL heLmem c (getLast?_mem_of hc))
    rw [heL]
    dsimp only
    cases hfcL : eL.ai.fnc1Required with
    | true =>
      rw [if_pos rfl]
      unfold gs1MessageParse
      dsimp only
      have hstripN : pyStrip (reconstructClaim (e1 :: erest) ++ [gsChar])
          = reconstructClaim (e1 :: erest) := by
        rw [hRc]
        exact pyStrip_append_gs hb1sp hlastc
      rw [hstripN,
        parseElems_of_reparse (reconstructClaim (e1 :: erest)) region
          (e1 :: erest) hall]
      rfl
    | false =>
      rw [if_neg (show ¬(false = true) from by simp), List.append_nil]
      unfold gs1MessageParse
      dsimp only
      have hstripN : pyStrip (reconstructClaim (e1 :: erest))
          = reconstructClaim (e1 :: erest) := by
        rw [hRc]
        exact pyStrip_eq_self_of_ends hb1sp hlastc
      rw [hstripN,
        parseElems_of_reparse (reconstructClaim (e1 :: erest)) region
          (e1 :: erest) hall]
      rfl

/-- Witness for `c5_hri_roundtrip_amended`: the one-element message
`11250516` (AI 11, production date), whose value is all digits. -/
theorem c5_hri_roundtrip_amended_witness :
    gs1MessageParse "11250516".toList none defaultSeparatorChars =
      .ok ⟨"11250516".toList,
        [⟨⟨"11".toList, "PROD DATE".toList, false, [(.nclass, 6)], none⟩,
          "250516".toList, none, none⟩]⟩ ∧
    gs1MessageParseHri
      (msgAsHri ⟨"11250516".toList,
        [⟨⟨"11".toList, "PROD DATE".toList, false, [(.nclass, 6)], none⟩,
          "250516".toList, none, none⟩]⟩) none =
      .ok ⟨reconstructClaim
        [⟨⟨"11".toList, "PROD DATE".toList, false, [(.nclass, 6)], none⟩,
          "250516".toList, none, none⟩],
        [⟨⟨"11".toList, "PROD DATE".toList, false, [(.nclass, 6)], none⟩,
          "250516".toList, none, none⟩]⟩ :=
  ⟨by decide,
    c5_hri_roundtrip_amended "11250516".toList none
      ⟨"11250516".toList,
        [⟨⟨"11".toList, "PROD DATE".toList, false, [(.nclass, 6)], none⟩,
          "250516".toList, none, none⟩]⟩
      (by decide) (by decide) (by decide)⟩

/-- The suffixes of the input that `GS1Message.parse`'s loop visits: from a
buffer, extracting an Element String and advancing past it — consuming one
separator character after an FNC1-required element, or nothing when no
separator follows — reaches the next buffer. -/
inductive ReachesSuffix (region : Option RcnRegion) (seps : List Char) :
    List Char → List Char → Prop
  | refl (r : List Char) : ReachesSuffix region seps r r
  | stepSep {r₁ r₂ : List Char} {es : GS1ElementString} {c : Char}
      {tail : List Char} :
      ReachesSuffix region seps r₁ r₂ →
      gs1ExtractElement r₂ region seps = .ok es →
      r₂.drop (esLen es) = c :: tail →
      seps.contains c = true →
      es.ai.fnc1Required = true →
      ReachesSuffix region seps r₁ tail
  | stepPlain {r₁ r₂ : List Char} {es : GS1ElementString} {c : Char}
      {tail : List Char} :
      ReachesSuffix region seps r₁ r₂ →
      gs1ExtractElement r₂ region seps = .ok es →
      r₂.drop (esLen es) = c :: tail →
      seps.contains c = false →
      ReachesSuffix region seps r₁ (c :: tail)

/-- An error of the loop at a reached suffix propagates unchanged to the
whole loop. -/
theorem parseElems_error_of_reaches {region : Option RcnRegion}
    {seps orig r₁ r₂ : List Char} {e : BiipError}
    (h : ReachesSuffix region seps r₁ r₂)
    (he : parseElems orig region seps r₂ = .error e) :
    parseElems orig region seps r₁ = .error e := by
  induction h with
  | refl => exact he
  | @stepSep r₂' es c tail hr hx hd hsep hf ih =>
    apply ih
    cases r₂' with
    | nil => simp at hd
    | cons x xs =>
      rw [parseElems_cons]
      simp only [hx]
      rw [hd]
      dsimp only
      rw [if_pos hsep, if_pos hf, he]
      rfl
  | @stepPlain r₂' es c tail hr hx hd hsep ih =>
    apply ih
    cases r₂' with
    | nil => simp at hd
    | cons x xs =>
      rw [parseElems_cons]
      simp only [hx]
      rw [hd]
      dsimp only
      rw [if_neg (by rw [hsep]; simp), he]
      rfl

/-- **C4**: in `GS1Message.parse`, when the remaining buffer after an
extracted Element String starts with a separator character: if the
just-consumed AI is FNC1-required, exactly one separator character is
consumed and parsing continues on the rest; if it is not (a fixed-length
field), the loop raises `ParseError` — and consequently, for every input
whose parse visits a position where a fixed-length AI's value is followed
by a separator, `GS1Message.parse` of the whole input fails with that
`ParseError`. -/
theorem c4_fixed_length_separator (value : List Char)
    (region : Option RcnRegion) (seps : List Char) (r : List Char)
    (es : GS1ElementString) (c : Char) (tail : List Char)
    (hx : gs1ExtractElement r region seps = .ok es)
    (hd : r.drop (esLen es) = c :: tail)
    (hsep : seps.contains c = true) :
    (es.ai.fnc1Required = true →
      parseElems (pyStrip value) region seps r =
        (parseElems (pyStrip value) region seps tail).map (es :: ·)) ∧
    (es.ai.fnc1Required = false →
      parseElems (pyStrip value) region seps r =
        .error (.parseError (fixedSepMsg es c (pyStrip value)))) ∧
    (es.ai.fnc1Required = false →
      ReachesSuffix region seps (pyStrip value) r →
      gs1MessageParse value region seps =
        .error (.parseError (fixedSepMsg es c (pyStrip value)))) := by
  have hr : r ≠ [] := by
    intro hnil
    rw [hnil] at hd
    simp at hd
  have step : ∀ (hf : Bool), es.ai.fnc1Required = hf →
      parseElems (pyStrip value) region seps r =
        (if hf then (parseElems (pyStrip value) region seps tail).map (es :: ·)
         else .error (.parseError (fixedSepMsg es c (pyStrip value)))) := by
    intro hf hhf
    cases r with
    | nil => exact absurd rfl hr
    | cons x xs =>
      rw [parseElems_cons]
      simp only [hx]
      rw [hd]
      dsimp only
      rw [if_pos hsep, hhf]
  refine ⟨fun h1 => by simpa using step true h1,
    fun h0 => by simpa using step false h0, ?_⟩
  intro h0 hreach
  unfold gs1MessageParse
  dsimp only
  rw [parseElems_error_of_reaches hreach (by simpa using step false h0)]
  rfl

/-- Witness for `c4_fixed_length_separator`: the fixed-length AI 11
followed by a separator fails the whole parse, and the FNC1-required AI 10
followed by a separator consumes it and continues. -/
theorem c4_fixed_length_separator_witness :
    (gs1ExtractElement ("11250516".toList ++ [gsChar] ++ "10AB".toList)
        none defaultSeparatorChars =
      .ok ⟨⟨"11".toList, "PROD DATE".toList, false, [(.nclass, 6)], none⟩,
        "250516".toList, none, none⟩) ∧
    gs1MessageParse ("11250516".toList ++ [gsChar] ++ "10AB".toList)
        none defaultSeparatorChars =
      .error (.parseError (fixedSepMsg
        ⟨⟨"11".toList, "PROD DATE".toList, false, [(.nclass, 6)], none⟩,
          "250516".toList, none, none⟩
        gsChar ("11250516".toList ++ [gsChar] ++ "10AB".toList))) ∧
    parseElems (pyStrip ("10AB".toList ++ [gsChar] ++ "11250516".toList))
        none defaultSeparatorChars
        ("10AB".toList ++ [gsChar] ++ "11250516".toList) =
      (parseElems (pyStrip ("10AB".toList ++ [gsChar] ++ "11250516".toList))
        none defaultSeparatorChars "11250516".toList).map
        (⟨⟨"10".toList, "BATCH/LOT".toList, true, [], some (.xclass, 20)⟩,
          "AB".toList, none, none⟩ :: ·) := by
  refine ⟨by decide, ?_, ?_⟩
  · have h := (c4_fixed_length_separator
      ("11250516".toList ++ [gsChar] ++ "10AB".toList) none
      defaultSeparatorChars
      ("11250516".toList ++ [gsChar] ++ "10AB".toList)
      ⟨⟨"11".toList, "PROD DATE".toList, false, [(.nclass, 6)], none⟩,
        "250516".toList, none, none⟩
      gsChar "10AB".toList (by decide) (by decide) (by decide)).2.2
      (by decide) (by exact .refl _)
    rw [show pyStrip ("11250516".toList ++ [gsChar] ++ "10AB".toList)
      = "11250516".toList ++ [gsChar] ++ "10AB".toList from by decide] at h
    exact h
  · have h := (c4_fixed_length_separator
      ("10AB".toList ++ [gsChar] ++ "11250516".toList) none
      defaultSeparatorChars
      ("10AB".toList ++ [gsChar] ++ "11250516".toList)
      ⟨⟨"10".toList, "BATCH/LOT".toList, true, [], some (.xclass, 20)⟩,
        "AB".toList, none, none⟩
      gsChar "11250516".toList (by decide) (by decide) (by decide)).1
      (by decide)
    exact h

/-- **C8**: dispatcher seeding — with a Symbology Identifier whose
`gs1_symbology` is in the GTIN set a `(GTIN, rest)` job is seeded, in the
AI element strings set a `(GS1_MESSAGE, rest)` job (both when both match,
GTIN first); with no Symbology Identifier, an unrecognized one, or one in
neither set, the queue is exactly `[(GS1_MESSAGE, rest), (GTIN, rest),
(SSCC, rest), (UPC, rest)]`; and the queue is drained FIFO, each step's new
jobs going to the back. -/
theorem c8_seeding :
    (∀ v : List Char, seedJobs none v =
      [(.gs1message, v), (.gtin, v), (.sscc, v), (.upc, v)]) ∧
    (∀ (si : SymbologyIdentifier) (v : List Char), si.gs1Symbology = none →
      seedJobs (some si) v =
        [(.gs1message, v), (.gtin, v), (.sscc, v), (.upc, v)]) ∧
    (∀ (si : SymbologyIdentifier) (v : List Char) (g : GS1Symbology),
      si.gs1Symbology = some g →
      (g ∈ gs1SymbologyWithGtin ∨ g ∈ gs1SymbologyWithAIElementStrings) →
      seedJobs (some si) v =
        (if g ∈ gs1SymbologyWithGtin then [(.gtin, v)] else []) ++
        (if g ∈ gs1SymbologyWithAIElementStrings then [(.gs1message, v)]
         else [])) ∧
    (∀ (si : SymbologyIdentifier) (v : List Char) (g : GS1Symbology),
      si.gs1Symbology = some g →
      g ∉ gs1SymbologyWithGtin → g ∉ gs1SymbologyWithAIElementStrings →
      seedJobs (some si) v =
        [(.gs1message, v), (.gtin, v), (.sscc, v), (.upc, v)]) ∧
    (∀ (region : Option RcnRegion) (seps : List Char) (s : ParseResult)
      (j : Job) (js : List Job),
      dispatchRun region seps s (j :: js) =
        dispatchRun region seps (runJob region seps s j).1
          (js ++ (runJob region seps s j).2)) := by
  refine ⟨fun v => rfl, ?_, ?_, ?_, dispatchRun_cons⟩
  · intro si v h
    unfold seedJobs
    simp [h]
  · intro si v g h hor
    unfold seedJobs
    dsimp only
    rw [h]
    rcases Decidable.em (g ∈ gs1SymbologyWithGtin) with hg | hg <;>
      rcases Decidable.em (g ∈ gs1SymbologyWithAIElementStrings) with ha | ha <;>
      simp [hg, ha] <;> tauto
  · intro si v g h hg ha
    unfold seedJobs
    dsimp only
    rw [h]
    simp [hg, ha]

/-- Witness for `c8_seeding`: the symbology codes `E0` (GTIN set),
`C1` (AI element strings set), and an unrecognized pair. -/
theorem c8_seeding_witness :
    seedJobs (some ⟨[']', 'E', '0'], some .eUpper0⟩) "x".toList =
      [(.gtin, "x".toList)] ∧
    seedJobs (some ⟨[']', 'C', '1'], some .cOne⟩) "x".toList =
      [(.gs1message, "x".toList)] ∧
    seedJobs (some ⟨[']', 'Z', '9'], none⟩) "x".toList =
      [(.gs1message, "x".toList), (.gtin, "x".toList),
        (.sscc, "x".toList), (.upc, "x".toList)] := by
  refine ⟨?_, ?_, ?_⟩
  · rw [c8_seeding.2.2.1 ⟨[']', 'E', '0'], some .eUpper0⟩ "x".toList
      .eUpper0 rfl (Or.inl (by decide))]
    decide
  · rw [c8_seeding.2.2.1 ⟨[']', 'C', '1'], some .cOne⟩ "x".toList
      .cOne rfl (Or.inr (by decide))]
    decide
  · exact c8_seeding.2.1 ⟨[']', 'Z', '9'], none⟩ "x".toList rfl

/-- **C3 counterexample**: the claim says a successfully parsed UPC always
enqueues a GTIN job on its UPC-A expansion.  In the dispatcher's own run on
the valid GTIN-12/UPC-A value `961111111118` (seeded with all four
parsers), the GTIN decoder fills the GTIN slot first and cross-feeds a UPC
job; when the seeded UPC job then succeeds, the GTIN slot is already
filled and nothing is enqueued. -/
theorem c3_counterexample :
    let v := "961111111118".toList
    let dsc := defaultSeparatorChars
    let s0 : ParseResult := { value := v }
    let s1 := (runJob none dsc s0 (.gs1message, v)).1
    let s2 := (runJob none dsc s1 (.gtin, v)).1
    let s3 := (runJob none dsc s2 (.sscc, v)).1
    seedJobs none v = [(.gs1message, v), (.gtin, v), (.sscc, v), (.upc, v)] ∧
    (runJob none dsc s0 (.gs1message, v)).2 = [] ∧
    (runJob none dsc s1 (.gtin, v)).2 = [(.upc, v)] ∧
    (runJob none dsc s2 (.sscc, v)).2 = [] ∧
    s3.gtin = some { value := v, format := .gtin12, rcn := none } ∧
    s3.upc = none ∧
    upcParse v = .ok { value := v, format := .upcA } ∧
    (runJob none dsc s3 (.upc, v)).1.upc =
      some { value := v, format := .upcA } ∧
    (runJob none dsc s3 (.upc, v)).2 = [] ∧
    topParse v none dsc =
      .ok (runJob none dsc (runJob none dsc s3 (.upc, v)).1 (.upc, v)).1 := by
  refine ⟨rfl, ?_, ?_, ?_, ?_, ?_, ?_, ?_, ?_, ?_⟩ <;> decide

/-- **C3 (amended)**: cross-feeding happens only on a decoder's success and
follows the four rules of the claim, each additionally guarded by the
target slot (and the decoder's own slot) still being empty: a GTIN-12
enqueues a UPC job on its canonical 12-digit form only when the UPC slot is
empty; a UPC enqueues a GTIN job on its UPC-A expansion only when the GTIN
slot is empty; a GS1 Message enqueues an SSCC job for an AI 00 element's
`sscc` and a GTIN job for an AI 01 element's `gtin` (unconditionally on its
success); a failed decoder, and an SSCC job, enqueue nothing. -/
theorem c3_crossfeed_amended (region : Option RcnRegion) (seps : List Char)
    (s : ParseResult) (v : List Char) :
    (∀ e, gtinParse v (region.map Sum.inl) = .error e →
      (runJob region seps s (.gtin, v)).2 = []) ∧
    (∀ e, upcParse v = .error e →
      (runJob region seps s (.upc, v)).2 = []) ∧
    (∀ e, gs1MessageParse v region seps = .error e →
      (runJob region seps s (.gs1message, v)).2 = []) ∧
    ((runJob region seps s (.sscc, v)).2 = []) ∧
    (∀ g, gtinParse v (region.map Sum.inl) = .ok g →
      (runJob region seps s (.gtin, v)).2 =
        if s.gtin = none ∧ g.format = .gtin12 ∧ s.upc = none
        then [(.upc, g.asGtin12)] else []) ∧
    (∀ u, upcParse v = .ok u →
      (runJob region seps s (.upc, v)).2 =
        if s.upc = none ∧ s.gtin = none
        then [(.gtin, upcAsUpcA u)] else []) ∧
    (∀ m, gs1MessageParse v region seps = .ok m →
      (runJob region seps s (.gs1message, v)).2 =
        if s.gs1Message = none then
          (match (gs1MessageGetAi m "00".toList).bind (fun es => es.sscc) with
           | some sc => [(.sscc, sc.value)]
           | none => []) ++
          (match (gs1MessageGetAi m "01".toList).bind (fun es => es.gtin) with
           | some g => [(.gtin, g.value)]
           | none => [])
        else []) := by
  refine ⟨?_, ?_, ?_, ?_, ?_, ?_, ?_⟩
  · intro e he
    unfold runJob parseGtinSlot
    cases hsg : s.gtin with
    | some g0 => simp
    | none => simp [he]
  · intro e he
    unfold runJob parseUpcSlot
    cases hsu : s.upc with
    | some u0 => simp
    | none => simp [he]
  · intro e he
    unfold runJob parseGS1MessageSlot
    cases hsm : s.gs1Message with
    | some m0 => simp
    | none => simp [he]
  · unfold runJob parseSsccSlot
    cases hss : s.sscc with
    | some sc0 => simp
    | none =>
      dsimp only
      simp only [Option.isSome_none, Bool.false_eq_true, if_false]
      split <;> rfl
  · intro g hg
    unfold runJob parseGtinSlot
    cases hsg : s.gtin with
    | some g0 => simp [hsg]
    | none =>
      dsimp only
      simp only [Option.isSome_none, Bool.false_eq_true, if_false, hg,
        true_and]
      split
      · rfl
      · rfl
  · intro u hu
    unfold runJob parseUpcSlot
    cases hsu : s.upc with
    | some u0 => simp [hsu]
    | none =>
      dsimp only
      simp only [Option.isSome_none, Bool.false_eq_true, if_false, hu,
        true_and]
      split
      · rfl
      · rfl
  · intro m hm
    unfold runJob parseGS1MessageSlot
    cases hsm : s.gs1Message with
    | some m0 => simp [hsm]
    | none =>
      dsimp only
      simp only [Option.isSome_none, Bool.false_eq_true, if_false, hm,
        if_true]

/-- Witness for `c3_crossfeed_amended`: on the fresh state for the GTIN-12
`961111111118`, the GTIN rule cross-feeds the UPC job. -/
theorem c3_crossfeed_amended_witness :
    gtinParse "961111111118".toList ((none : Option RcnRegion).map Sum.inl) =
      .ok { value := "961111111118".toList, format := .gtin12, rcn := none } ∧
    (runJob none defaultSeparatorChars { value := "961111111118".toList }
      (.gtin, "961111111118".toList)).2 =
      [(.upc, Gtin.asGtin12
        { value := "961111111118".toList, format := .gtin12, rcn := none })] := by
  refine ⟨by decide, ?_⟩
  rw [(c3_crossfeed_amended none defaultSeparatorChars
    { value := "961111111118".toList } "961111111118".toList).2.2.2.2.1
    { value := "961111111118".toList, format := .gtin12, rcn := none }
    (by decide)]
  decide

/-- Witness for `c2_parse_success_iff`: the all-decoders-fail input `x`
raises with the labelled error list; the same theorem's success branch on
`5901234123457`. -/
theorem c2_parse_success_iff_witness :
    topParse "x".toList none defaultSeparatorChars =
      .error (.parseError (failMsg "x".toList
        (dispatchedResult none "x".toList "x".toList none
          defaultSeparatorChars))) ∧
    topParse "5901234123457".toList none defaultSeparatorChars =
      .ok (dispatchedResult none "5901234123457".toList
        "5901234123457".toList none defaultSeparatorChars) :=
  ⟨((c2_parse_success_iff "x".toList none defaultSeparatorChars).2.1
      (by decide)).2 (by decide),
    ((c2_parse_success_iff "5901234123457".toList none
      defaultSeparatorChars).2.1 (by decide)).1 (by decide)⟩

end Biip
